import Mathlib

/-!
# Verification of the snakemake JSON logger core

Shallow embedding, in Lean 4, of the event-log parsing and state-reconstruction
engine of `snakemake-logger-plugin-json`:

* `JsonValue` — parsed JSON data (as produced by Python's `json.loads`);
* the record model of `models.py` (`JsonLogRecord` and its concrete variants,
  the `_serialize` wrap-serializer);
* the record decoder of `json.py` (`logrecord_from_json` / `_get_record_model`
  plus the pydantic per-variant structural validation);
* the object boundary parser of `json.py` (`JsonObjectParser`);
* the run reducer of `stuff.py` (`RunStatus.process_record` and friends).

Python machine-level details are modelled as follows: `float` timestamps are
embedded as exact rationals (`ℚ`); `datetime` values as their POSIX timestamp,
so `datetime.fromtimestamp` is the identity; `UUID` and `PurePath` values by
their canonical string form; Python dicts as insertion-ordered association
lists.  Python's `json.loads` (an external library) is passed to the boundary
parser as an explicit function argument `loads : String → Option JsonValue`,
`none` standing for `json.JSONDecodeError`.
-/

namespace SnakemakeJson

/-- A parsed JSON value, as returned by Python's `json.loads`.
`int` and `num` are kept separate because Python distinguishes `int` and
`float` JSON numbers; floats are embedded as exact rationals. -/
inductive JsonValue where
  | null : JsonValue
  | bool (b : Bool) : JsonValue
  | int (n : Int) : JsonValue
  | num (q : ℚ) : JsonValue
  | str (s : String) : JsonValue
  | arr (xs : List JsonValue) : JsonValue
  | obj (kvs : List (String × JsonValue)) : JsonValue

/-- A JSON object: an insertion-ordered list of key/value pairs (a Python dict
with string keys). -/
abbrev JsonObj := List (String × JsonValue)

/-- Lookup of a key in a JSON object.  A `JsonObj` stands for a Python dict
(as built by `json.loads` or `dict(data)`), whose keys are unique, so lookup
returns the first matching pair. -/
def objGet (o : JsonObj) (k : String) : Option JsonValue :=
  match o with
  | [] => none
  | (k', v) :: t => if k' = k then some v else objGet t k

/-- Source `dict.pop(k, None)`: remove every pair with the given key. -/
def objRemove (o : JsonObj) (k : String) : JsonObj :=
  o.filter (fun kv => kv.1 ≠ k)

/-- Membership test, `k in obj`. -/
def objHas (o : JsonObj) (k : String) : Bool :=
  (objGet o k).isSome

-- ------------------------------------------------------------------ --
--  Python string helpers used by JsonObjectParser.process_line        --
-- ------------------------------------------------------------------ --

/-- The ASCII whitespace characters recognised by Python's `str.rstrip()` and
`str.isspace()` (space, tab, newline, carriage return, vertical tab, form
feed). -/
def pySpaceChar (c : Char) : Bool :=
  (c == ' ') || (c == '\t') || (c == '\n') || (c == '\r') || (c == '\x0b') || (c == '\x0c')

/-- Python `line.rstrip()`: drop trailing whitespace, keep leading. -/
def pyRstrip (s : String) : String :=
  ⟨(s.data.reverse.dropWhile pySpaceChar).reverse⟩

/-- Python `line.isspace()`: `True` iff the string is nonempty and every
character is whitespace.  Note `"".isspace()` is `False` in Python. -/
def pyIsSpace (s : String) : Bool :=
  !s.data.isEmpty && s.data.all pySpaceChar

/-- Python check whether the line starts with an opening brace. -/
def startsWithBrace (s : String) : Bool :=
  match s.data with
  | [] => false
  | c :: _ => c = '\x7b'

-- ------------------------------------------------------------------ --
--  json.py: JsonParseError and JsonObjectParser                       --
-- ------------------------------------------------------------------ --

/-- Source `JsonParseError` from `json.py`: message, offending data, and the 1-based
start/end line numbers where known. -/
structure JsonParseError where
  msg : String
  data : Option JsonValue := none
  start_line : Option Nat := none
  end_line : Option Nat := none

/-- The mutable state of `JsonObjectParser`: the 1-based number of the last
line processed, the accumulated (rstripped) lines of the currently open
multi-line object, and the line on which that object started. -/
structure ParserState where
  current_line : Nat
  current_obj : List String
  current_started : Nat

/-- Source `JsonObjectParser()`: fresh parser state. -/
def ParserState.init : ParserState :=
  { current_line := 0, current_obj := [], current_started := 0 }

/-- A completed object: `(start_line, end_line, value)`. -/
abbrev ObjParseResult := Nat × Nat × JsonValue

/-- Source `JsonObjectParser.process_line`, with Python's `json.loads` supplied as
the argument `loads` (`none` = `json.JSONDecodeError`).  Returns the state as
mutated up to the point of return or raise, together with either the raised
`JsonParseError` or the optional completed object. -/
def processLine (loads : String → Option JsonValue) (st : ParserState)
    (line₀ : String) : ParserState × Except JsonParseError (Option ObjParseResult) :=
  -- self.current_line += 1
  let st := { st with current_line := st.current_line + 1 }
  -- line = line.rstrip()
  let line := pyRstrip line₀
  -- if line.isspace(): return None   (dead after rstrip: see pyIsSpace)
  if pyIsSpace line then (st, .ok none)
  -- if self._current_obj:
  else if st.current_obj ≠ [] then
    let st := { st with current_obj := st.current_obj ++ [line] }
    if line = "\x7d" then
      let data := String.join st.current_obj
      match loads data with
      | none =>
        (st, .error { msg := "JSONDecodeError", start_line := some st.current_started,
                      end_line := some st.current_line })
      | some value =>
        ({ st with current_obj := [], current_started := 0 },
         .ok (some (st.current_started, st.current_line, value)))
    else
      (st, .ok none)
  -- if line == '\x7b': start a new multi-line object
  else if line = "\x7b" then
    ({ st with current_obj := [line], current_started := st.current_line }, .ok none)
  -- otherwise expect a complete object on a single line
  else
    let fail : ParserState × Except JsonParseError (Option ObjParseResult) :=
      (st, .error { msg := "Expected single opening brace or complete JSON object",
                    start_line := some st.current_line, end_line := some st.current_line })
    if startsWithBrace line then
      match loads line with
      | some (.obj kvs) => (st, .ok (some (st.current_line, st.current_line, .obj kvs)))
      | some _ => fail
      | none => fail
    else
      fail

/-- Source `JsonObjectParser.process_lines`: process each line in turn, collecting
every completed object; stop at the first raised error. -/
def processLines (loads : String → Option JsonValue) (st : ParserState) :
    List String → ParserState × List ObjParseResult × Option JsonParseError
  | [] => (st, [], none)
  | l :: ls =>
    match processLine loads st l with
    | (st', .error e) => (st', [], some e)
    | (st', .ok none) => processLines loads st' ls
    | (st', .ok (some r)) =>
      let (st'', rs, e) := processLines loads st' ls
      (st'', r :: rs, e)

/-- Source `JsonObjectParser.complete`: raise iff a multi-line object is still open. -/
def ParserState.complete (st : ParserState) : Option JsonParseError :=
  if st.current_obj ≠ [] then
    some { msg := "JSON object starting on line " ++ toString st.current_started
                    ++ " not closed",
           start_line := some st.current_started,
           end_line := some st.current_line }
  else
    none

-- ------------------------------------------------------------------ --
--  models.py: the record model                                        --
-- ------------------------------------------------------------------ --

/-- Source `ExceptionInfo` from `models.py`: message and type name of a caught
exception. -/
structure ExceptionInfo where
  message : String
  type : String

/-- The fields of the abstract base class `JsonLogRecord`: `message`,
`levelno`, `created` (a float timestamp, embedded as `ℚ`) and `exc_info`. -/
structure RecBase where
  message : Option String
  levelno : Int
  created : ℚ
  exc_info : Option ExceptionInfo

/-- Source `dict[str, Any] | list | None`, the type of `JobInfoRecord.resources`. -/
inductive DictOrList where
  | dict (d : JsonObj)
  | list (l : List JsonValue)

/-- The closed set of concrete record variants of `models.py`
(`StandardLogRecord`, the two registered `MetaLogRecord` subclasses, and the
fourteen registered `SnakemakeLogRecord` subclasses).  Fields appear in
dataclass order; `UUID` and `PurePath` values are embedded by their canonical
string form.  `GroupInfoRecord.jobs` is annotated `list[Any]` in the source
and holds snakemake job ids; it is embedded at `List Int`. -/
inductive JsonLogRecord where
  | standard (base : RecBase)
  | loggingStarted (base : RecBase) (pid : Int) (proc_started : Option ℚ)
  | formattingError (base : RecBase) ( record_partial : JsonObj)
      (exception : Option ExceptionInfo)
  | errorRec (base : RecBase)
      (exception location rule trackeback file line : Option String)
  | workflowStarted (base : RecBase) (workflow_id : String)
      (snakefile : Option String)
  | jobInfo (base : RecBase) (jobid : Int) (rule_name : String) (threads : Int)
      (input output log : Option (List String))
      (benchmark rule_msg : Option String) (wildcards : Option JsonObj)
      (reason shellcmd : Option String) (priority : Option Int)
      (resources : Option DictOrList)
  | jobStarted (base : RecBase) (jobs : List Int)
  | jobFinished (base : RecBase) (job_id : Int)
  | shellCmd (base : RecBase) (jobid : Option Int)
      (shellcmd rule_name : Option String)
  | jobError (base : RecBase) (jobid : Int)
  | groupInfo (base : RecBase) (group_id : Int) (jobs : List Int)
  | groupError (base : RecBase) (groupid : Int) (aux_logs : List JsonValue)
      (job_error_info : JsonObj)
  | resourcesInfo (base : RecBase) (nodes : Option (List String))
      (cores : Option Int) (provided_resources : Option JsonObj)
  | debugDag (base : RecBase) (status : Option String) (job : JsonValue)
      (file exception : Option String)
  | progress (base : RecBase) (done total : Int)
  | rulegraphRec (base : RecBase) (rulegraph : Option JsonObj)
  | runInfo (base : RecBase) (stats : List (String × Int))

namespace JsonLogRecord

/-- The base fields shared by every variant. -/
def base : JsonLogRecord → RecBase
  | standard b | loggingStarted b _ _ | formattingError b _ _
  | errorRec b _ _ _ _ _ _ | workflowStarted b _ _
  | jobInfo b _ _ _ _ _ _ _ _ _ _ _ _ _ | jobStarted b _ | jobFinished b _
  | shellCmd b _ _ _ | jobError b _ | groupInfo b _ _ | groupError b _ _ _
  | resourcesInfo b _ _ _ | debugDag b _ _ _ _ | progress b _ _
  | rulegraphRec b _ | runInfo b _ => b

/-- The class attribute `type` (the record's category tag). -/
def typeTag : JsonLogRecord → String
  | standard _ => "standard"
  | loggingStarted _ _ _ | formattingError _ _ _ => "meta"
  | _ => "snakemake"

/-- The class attribute `event` for `meta` and `snakemake` variants, as the
string `str(self.event)` written by `_serialize` (`LogEvent` members of
`snakemake-interface-logger-plugins` stringify to their lowercase value). -/
def eventTag : JsonLogRecord → Option String
  | standard _ => none
  | loggingStarted _ _ _ => some "logging_started"
  | formattingError _ _ _ => some "formatting_error"
  | errorRec _ _ _ _ _ _ _ => some "error"
  | workflowStarted _ _ _ => some "workflow_started"
  | jobInfo _ _ _ _ _ _ _ _ _ _ _ _ _ _ => some "job_info"
  | jobStarted _ _ => some "job_started"
  | jobFinished _ _ => some "job_finished"
  | shellCmd _ _ _ _ => some "shellcmd"
  | jobError _ _ => some "job_error"
  | groupInfo _ _ _ => some "group_info"
  | groupError _ _ _ _ => some "group_error"
  | resourcesInfo _ _ _ _ => some "resources_info"
  | debugDag _ _ _ _ _ => some "debug_dag"
  | progress _ _ _ => some "progress"
  | rulegraphRec _ _ => some "rulegraph"
  | runInfo _ _ => some "run_info"

/-- Source `SnakemakeLogRecord.associated_jobs` and its overrides: the job ids a
record is associated with (empty for the base implementation). -/
def associatedJobs : JsonLogRecord → List Int
  | jobInfo _ jobid _ _ _ _ _ _ _ _ _ _ _ _ => [jobid]
  | jobStarted _ jobs => jobs
  | jobFinished _ job_id => [job_id]
  | shellCmd _ jobid _ _ => match jobid with | none => [] | some j => [j]
  | jobError _ jobid => [jobid]
  | groupInfo _ _ jobs => jobs
  | _ => []

/-- Whether the record is a `SnakemakeLogRecord` (category `snakemake`). -/
def isSnakemake : JsonLogRecord → Bool
  | standard _ | loggingStarted _ _ _ | formattingError _ _ _ => false
  | _ => true

end JsonLogRecord

-- ------------------------------------------------------------------ --
--  models.py: serialization (JsonLogRecord._serialize)                --
-- ------------------------------------------------------------------ --

/-- Pydantic serialization of an `ExceptionInfo` value. -/
def dumpExcInfo (e : ExceptionInfo) : JsonValue :=
  .obj [("message", .str e.message), ("type", .str e.type)]

/-- Serialization of `X | None` fields: `None` becomes JSON `null`. -/
def dumpOpt (f : α → JsonValue) : Option α → JsonValue
  | none => .null
  | some a => f a

/-- Serialization of `list[str]` fields. -/
def dumpStrList (l : List String) : JsonValue :=
  .arr (l.map .str)

/-- Serialization of `list[int]`-valued fields. -/
def dumpIntList (l : List Int) : JsonValue :=
  .arr (l.map .int)

/-- Serialization of `JobInfoRecord.resources` (`dict | list | None`). -/
def dumpDictOrList : DictOrList → JsonValue
  | .dict d => .obj d
  | .list l => .arr l

/-- Serialization of `dict[str, int]` fields (`RunInfoRecord.stats`). -/
def dumpStats (l : List (String × Int)) : JsonValue :=
  .obj (l.map fun kv => (kv.1, .int kv.2))

/-- Source `logging.getLevelName(levelno) if levelno in NAMED_LEVELS else None`,
with `NAMED_LEVELS = (DEBUG, INFO, WARNING, ERROR, CRITICAL)`. -/
def levelnameValue (n : Int) : JsonValue :=
  if n = 10 then .str "DEBUG"
  else if n = 20 then .str "INFO"
  else if n = 30 then .str "WARNING"
  else if n = 40 then .str "ERROR"
  else if n = 50 then .str "CRITICAL"
  else .null

/-- Pydantic serialization of the base-class fields, in dataclass order. -/
def dumpBase (b : RecBase) : JsonObj :=
  [("message", dumpOpt .str b.message),
   ("levelno", .int b.levelno),
   ("created", .num b.created),
   ("exc_info", dumpOpt dumpExcInfo b.exc_info)]

/-- Source `handler(self)` in `_serialize`: the pydantic serialization of the
dataclass fields of the concrete variant, in dataclass field order. -/
def dumpFields : JsonLogRecord → JsonObj
  | .standard b => dumpBase b
  | .loggingStarted b pid proc_started =>
    dumpBase b ++ [("pid", .int pid), ("proc_started", dumpOpt .num proc_started)]
  | .formattingError b record_partial exception =>
    dumpBase b ++ [("record_partial", .obj record_partial),
                   ("exception", dumpOpt dumpExcInfo exception)]
  | .errorRec b exception location rule trackeback file line =>
    dumpBase b ++ [("exception", dumpOpt .str exception),
                   ("location", dumpOpt .str location),
                   ("rule", dumpOpt .str rule),
                   ("trackeback", dumpOpt .str trackeback),
                   ("file", dumpOpt .str file),
                   ("line", dumpOpt .str line)]
  | .workflowStarted b workflow_id snakefile =>
    dumpBase b ++ [("workflow_id", .str workflow_id),
                   ("snakefile", dumpOpt .str snakefile)]
  | .jobInfo b jobid rule_name threads input output log benchmark rule_msg
      wildcards reason shellcmd priority resources =>
    dumpBase b ++ [("jobid", .int jobid),
                   ("rule_name", .str rule_name),
                   ("threads", .int threads),
                   ("input", dumpOpt dumpStrList input),
                   ("output", dumpOpt dumpStrList output),
                   ("log", dumpOpt dumpStrList log),
                   ("benchmark", dumpOpt .str benchmark),
                   ("rule_msg", dumpOpt .str rule_msg),
                   ("wildcards", dumpOpt .obj wildcards),
                   ("reason", dumpOpt .str reason),
                   ("shellcmd", dumpOpt .str shellcmd),
                   ("priority", dumpOpt .int priority),
                   ("resources", dumpOpt dumpDictOrList resources)]
  | .jobStarted b jobs => dumpBase b ++ [("jobs", dumpIntList jobs)]
  | .jobFinished b job_id => dumpBase b ++ [("job_id", .int job_id)]
  | .shellCmd b jobid shellcmd rule_name =>
    dumpBase b ++ [("jobid", dumpOpt .int jobid),
                   ("shellcmd", dumpOpt .str shellcmd),
                   ("rule_name", dumpOpt .str rule_name)]
  | .jobError b jobid => dumpBase b ++ [("jobid", .int jobid)]
  | .groupInfo b group_id jobs =>
    dumpBase b ++ [("group_id", .int group_id), ("jobs", dumpIntList jobs)]
  | .groupError b groupid aux_logs job_error_info =>
    dumpBase b ++ [("groupid", .int groupid),
                   ("aux_logs", .arr aux_logs),
                   ("job_error_info", .obj job_error_info)]
  | .resourcesInfo b nodes cores provided_resources =>
    dumpBase b ++ [("nodes", dumpOpt dumpStrList nodes),
                   ("cores", dumpOpt .int cores),
                   ("provided_resources", dumpOpt .obj provided_resources)]
  | .debugDag b status job file exception =>
    dumpBase b ++ [("status", dumpOpt .str status),
                   ("job", job),
                   ("file", dumpOpt .str file),
                   ("exception", dumpOpt .str exception)]
  | .progress b done total =>
    dumpBase b ++ [("done", .int done), ("total", .int total)]
  | .rulegraphRec b rulegraph =>
    dumpBase b ++ [("rulegraph", dumpOpt .obj rulegraph)]
  | .runInfo b stats => dumpBase b ++ [("stats", dumpStats stats)]

/-- Source `if d['exc_info'] is None: del d['exc_info']` at the end of
`_serialize`. -/
def delNullExcInfo (d : JsonObj) : JsonObj :=
  match objGet d "exc_info" with
  | some .null => objRemove d "exc_info"
  | _ => d

/-- Source `JsonLogRecord._serialize` (the pydantic wrap-serializer): prepend the
transport keys `type`, `event` (when the variant has one) and `levelname`,
merge in the dataclass fields, then drop `exc_info` when it is `None`. -/
def serializeRecord (r : JsonLogRecord) : JsonObj :=
  let d : JsonObj :=
    [("type", .str r.typeTag)]
      ++ (match r.eventTag with
          | some e => [("event", .str e)]
          | none => [])
      ++ [("levelname", levelnameValue r.base.levelno)]
      ++ dumpFields r
  delNullExcInfo d

-- ------------------------------------------------------------------ --
--  json.py: the record decoder                                        --
-- ------------------------------------------------------------------ --

/-- The concrete record model classes, as selected by `_get_record_model`. -/
inductive ModelClass where
  | standardLogRecord | loggingStartedRecord | formattingErrorRecord
  | errorRecord | workflowStartedRecord | jobInfoRecord | jobStartedRecord
  | jobFinishedRecord | shellCmdRecord | jobErrorRecord | groupInfoRecord
  | groupErrorRecord | resourcesInfoRecord | debugDagRecord | progressRecord
  | rulegraphRecord | runInfoRecord
  deriving DecidableEq

/-- The registry `META_RECORD_MODELS`, keyed by the meta event tag. -/
def META_RECORD_MODELS : List (String × ModelClass) :=
  [("logging_started", .loggingStartedRecord),
   ("formatting_error", .formattingErrorRecord)]

/-- The registry `SNAKEMAKE_RECORD_MODELS`, keyed by the snakemake `LogEvent`
value (members of that external enumeration compare equal to their lowercase
string value). -/
def SNAKEMAKE_RECORD_MODELS : List (String × ModelClass) :=
  [("error", .errorRecord),
   ("workflow_started", .workflowStartedRecord),
   ("job_info", .jobInfoRecord),
   ("job_started", .jobStartedRecord),
   ("job_finished", .jobFinishedRecord),
   ("shellcmd", .shellCmdRecord),
   ("job_error", .jobErrorRecord),
   ("group_info", .groupInfoRecord),
   ("group_error", .groupErrorRecord),
   ("resources_info", .resourcesInfoRecord),
   ("debug_dag", .debugDagRecord),
   ("progress", .progressRecord),
   ("rulegraph", .rulegraphRecord),
   ("run_info", .runInfoRecord)]

/-- Source `_get_record_model` from `json.py`: pick the concrete model class from the
`type` and `event` keys of the raw object. -/
def getRecordModel (obj : JsonObj) : Except JsonParseError ModelClass :=
  match objGet obj "type" with
  | none => .error { msg := "Record JSON missing \x22type\x22 property", data := some (.obj obj) }
  | some typ =>
    match typ with
    | .str "standard" => .ok .standardLogRecord
    | .str "meta" =>
      match objGet obj "event" with
      | none => .error { msg := "Record JSON of type meta missing \x22event\x22 property",
                         data := some (.obj obj) }
      | some (.str event) =>
        match META_RECORD_MODELS.lookup event with
        | some m => .ok m
        | none => .error { msg := "Invalid \x22event\x22 property for meta record: " ++ event,
                           data := some (.obj obj) }
      | some _ => .error { msg := "Invalid \x22event\x22 property for meta record",
                           data := some (.obj obj) }
    | .str "snakemake" =>
      match objGet obj "event" with
      | none => .error { msg := "Record JSON of type snakemake missing \x22event\x22 property",
                         data := some (.obj obj) }
      | some (.str event) =>
        match SNAKEMAKE_RECORD_MODELS.lookup event with
        | some m => .ok m
        | none => .error { msg := "Invalid \x22event\x22 property for snakemake record: " ++ event,
                           data := some (.obj obj) }
      | some _ => .error { msg := "Invalid \x22event\x22 property for snakemake record",
                           data := some (.obj obj) }
    | _ => .error { msg := "Invalid value for \x22type\x22 property", data := some (.obj obj) }

-- Pydantic validation of individual field values.  Only the JSON shapes that
-- pydantic accepts for the declared field types are modelled; `none` means a
-- validation error.

/-- Validation for `str` fields. -/
def decStr : JsonValue → Option String
  | .str s => some s
  | _ => none

/-- Validation for `str | None` fields. -/
def decStrOpt : JsonValue → Option (Option String)
  | .str s => some (some s)
  | .null => some none
  | _ => none

/-- Validation for `int` fields. -/
def decInt : JsonValue → Option Int
  | .int n => some n
  | _ => none

/-- Validation for `int | None` fields. -/
def decIntOpt : JsonValue → Option (Option Int)
  | .int n => some (some n)
  | .null => some none
  | _ => none

/-- Validation for `float` fields (pydantic also coerces JSON integers). -/
def decFloat : JsonValue → Option ℚ
  | .num q => some q
  | .int n => some (n : ℚ)
  | _ => none

/-- Validation for `float | None` fields. -/
def decFloatOpt : JsonValue → Option (Option ℚ)
  | .num q => some (some q)
  | .int n => some (some (n : ℚ))
  | .null => some none
  | _ => none

/-- Validation for `ExceptionInfo`: both fields are required strings. -/
def decExcInfo : JsonValue → Option ExceptionInfo
  | .obj o =>
    match objGet o "message", objGet o "type" with
    | some (.str m), some (.str t) => some ⟨m, t⟩
    | _, _ => none
  | _ => none

/-- Validation for `ExceptionInfo | None` fields. -/
def decExcInfoOpt : JsonValue → Option (Option ExceptionInfo)
  | .null => some none
  | v => (decExcInfo v).map some

/-- Validation for `list[str]` elements (element-wise). -/
def decStrList : List JsonValue → Option (List String)
  | [] => some []
  | v :: t =>
    match decStr v, decStrList t with
    | some s, some l => some (s :: l)
    | _, _ => none

/-- Validation for `list[str] | None` fields. -/
def decStrListOpt : JsonValue → Option (Option (List String))
  | .null => some none
  | .arr xs => (decStrList xs).map some
  | _ => none

/-- Validation for `list[int]` elements (element-wise). -/
def decIntList : List JsonValue → Option (List Int)
  | [] => some []
  | v :: t =>
    match decInt v, decIntList t with
    | some n, some l => some (n :: l)
    | _, _ => none

/-- Validation for `list[int]`-valued fields (`jobs`). -/
def decIntListVal : JsonValue → Option (List Int)
  | .arr xs => decIntList xs
  | _ => none

/-- Validation for `dict[str, Any]` fields. -/
def decObj : JsonValue → Option JsonObj
  | .obj o => some o
  | _ => none

/-- Validation for `dict[str, Any] | None` fields. -/
def decObjOpt : JsonValue → Option (Option JsonObj)
  | .null => some none
  | .obj o => some (some o)
  | _ => none

/-- Validation for `Any` fields. -/
def decAny : JsonValue → Option JsonValue :=
  fun v => some v

/-- Validation for `list[Any]` fields. -/
def decAnyList : JsonValue → Option (List JsonValue)
  | .arr xs => some xs
  | _ => none

/-- Validation for `dict | list | None` (`JobInfoRecord.resources`). -/
def decDictOrListOpt : JsonValue → Option (Option DictOrList)
  | .null => some none
  | .obj o => some (some (.dict o))
  | .arr xs => some (some (.list xs))
  | _ => none

/-- Validation of `dict[str, int]` entries (value-wise). -/
def decStatsEntries : List (String × JsonValue) → Option (List (String × Int))
  | [] => some []
  | (k, v) :: t =>
    match decInt v, decStatsEntries t with
    | some n, some l => some ((k, n) :: l)
    | _, _ => none

/-- Validation for `dict[str, int]` fields (`RunInfoRecord.stats`). -/
def decStats : JsonValue → Option (List (String × Int))
  | .obj o => decStatsEntries o
  | _ => none

/-- Validation for `UUID` fields: a canonical UUID string. -/
def decUuid : JsonValue → Option String
  | .str s => some s
  | _ => none

/-- Validation for `PurePath | None` fields. -/
def decPathOpt : JsonValue → Option (Option String)
  | .str s => some (some s)
  | .null => some none
  | _ => none

/-- A pydantic validation error for one field of a model. -/
def fieldError (name : String) : JsonParseError :=
  { msg := "validation error for field " ++ name }

/-- Look up a required field (a dataclass field with no default) and validate
its value.  Keys not looked up by any field are ignored: pydantic's default
config for dataclasses is `extra='ignore'` (the `extra='forbid'` config line
in `models.py` is commented out). -/
def vReq (obj : JsonObj) (name : String) (dec : JsonValue → Option α) :
    Except JsonParseError α :=
  match objGet obj name with
  | some v =>
    match dec v with
    | some a => .ok a
    | none => .error (fieldError name)
  | none => .error (fieldError name)

/-- Look up an optional field (a dataclass field with a default) and validate
its value, falling back to the default when the key is absent. -/
def vOpt (obj : JsonObj) (name : String) (dec : JsonValue → Option α)
    (dflt : α) : Except JsonParseError α :=
  match objGet obj name with
  | some v =>
    match dec v with
    | some a => .ok a
    | none => .error (fieldError name)
  | none => .ok dflt

/-- Validate the base-class fields.  `message` and `levelno` are required in
`JsonLogRecord` itself but some variants re-declare them with defaults, so the
defaults are supplied by the caller (`none` meaning required).  `created`
defaults to the current time (`default_factory=time.time`), injected as
`now`. -/
def vBase (now : ℚ) (obj : JsonObj) (messageDflt : Option (Option String))
    (levelnoDflt : Option Int) : Except JsonParseError RecBase := do
  let message ← match messageDflt with
    | none => vReq obj "message" decStrOpt
    | some d => vOpt obj "message" decStrOpt d
  let levelno ← match levelnoDflt with
    | none => vReq obj "levelno" decInt
    | some d => vOpt obj "levelno" decInt d
  let created ← vOpt obj "created" decFloat now
  let exc_info ← vOpt obj "exc_info" decExcInfoOpt none
  return ⟨message, levelno, created, exc_info⟩

/-- Pydantic structural validation of the raw object (with transport keys
already stripped) against the selected model class:
`adapter_cache.validate_python(model, obj)`. -/
def validateModel (now : ℚ) (model : ModelClass) (o : JsonObj) :
    Except JsonParseError JsonLogRecord := do
  match model with
  | .standardLogRecord =>
    let b ← vBase now o none none
    return .standard b
  | .loggingStartedRecord =>
    -- levelno defaults to INFO, message to the init banner
    let b ← vBase now o (some (some "JSON logging plugin initialized")) (some 20)
    let pid ← vReq o "pid" decInt
    let proc_started ← vOpt o "proc_started" decFloatOpt none
    return .loggingStarted b pid proc_started
  | .formattingErrorRecord =>
    -- levelno defaults to ERROR
    let b ← vBase now o (some (some "Error converting log record to JSON")) (some 40)
    let record_partial ← vReq o "record_partial" decObj
    let exception ← vOpt o "exception" decExcInfoOpt none
    return .formattingError b record_partial exception
  | .errorRecord =>
    let b ← vBase now o none none
    let exception ← vOpt o "exception" decStrOpt none
    let location ← vOpt o "location" decStrOpt none
    let rule ← vOpt o "rule" decStrOpt none
    let trackeback ← vOpt o "trackeback" decStrOpt none
    let file ← vOpt o "file" decStrOpt none
    let line ← vOpt o "line" decStrOpt none
    return .errorRec b exception location rule trackeback file line
  | .workflowStartedRecord =>
    let b ← vBase now o none none
    let workflow_id ← vReq o "workflow_id" decUuid
    let snakefile ← vReq o "snakefile" decPathOpt
    return .workflowStarted b workflow_id snakefile
  | .jobInfoRecord =>
    let b ← vBase now o none none
    let jobid ← vReq o "jobid" decInt
    let rule_name ← vReq o "rule_name" decStr
    let threads ← vReq o "threads" decInt
    let input ← vOpt o "input" decStrListOpt none
    let output ← vOpt o "output" decStrListOpt none
    let log ← vOpt o "log" decStrListOpt none
    let benchmark ← vOpt o "benchmark" decStrOpt none
    let rule_msg ← vOpt o "rule_msg" decStrOpt none
    let wildcards ← vOpt o "wildcards" decObjOpt none
    let reason ← vOpt o "reason" decStrOpt none
    let shellcmd ← vOpt o "shellcmd" decStrOpt none
    let priority ← vOpt o "priority" decIntOpt none
    let resources ← vOpt o "resources" decDictOrListOpt none
    return .jobInfo b jobid rule_name threads input output log benchmark
      rule_msg wildcards reason shellcmd priority resources
  | .jobStartedRecord =>
    let b ← vBase now o none none
    let jobs ← vReq o "jobs" decIntListVal
    return .jobStarted b jobs
  | .jobFinishedRecord =>
    let b ← vBase now o none none
    let job_id ← vReq o "job_id" decInt
    return .jobFinished b job_id
  | .shellCmdRecord =>
    let b ← vBase now o none none
    let jobid ← vOpt o "jobid" decIntOpt none
    let shellcmd ← vOpt o "shellcmd" decStrOpt none
    let rule_name ← vOpt o "rule_name" decStrOpt none
    return .shellCmd b jobid shellcmd rule_name
  | .jobErrorRecord =>
    let b ← vBase now o none none
    let jobid ← vReq o "jobid" decInt
    return .jobError b jobid
  | .groupInfoRecord =>
    let b ← vBase now o none none
    let group_id ← vReq o "group_id" decInt
    let jobs ← vReq o "jobs" decIntListVal
    return .groupInfo b group_id jobs
  | .groupErrorRecord =>
    let b ← vBase now o none none
    let groupid ← vReq o "groupid" decInt
    let aux_logs ← vReq o "aux_logs" decAnyList
    let job_error_info ← vReq o "job_error_info" decObj
    return .groupError b groupid aux_logs job_error_info
  | .resourcesInfoRecord =>
    let b ← vBase now o none none
    let nodes ← vOpt o "nodes" decStrListOpt none
    let cores ← vOpt o "cores" decIntOpt none
    let provided_resources ← vOpt o "provided_resources" decObjOpt none
    return .resourcesInfo b nodes cores provided_resources
  | .debugDagRecord =>
    let b ← vBase now o none none
    let status ← vOpt o "status" decStrOpt none
    let job ← vOpt o "job" decAny .null
    let file ← vOpt o "file" decStrOpt none
    let exception ← vOpt o "exception" decStrOpt none
    return .debugDag b status job file exception
  | .progressRecord =>
    let b ← vBase now o none none
    let done ← vReq o "done" decInt
    let total ← vReq o "total" decInt
    return .progress b done total
  | .rulegraphRecord =>
    let b ← vBase now o none none
    let rulegraph ← vOpt o "rulegraph" decObjOpt none
    return .rulegraphRec b rulegraph
  | .runInfoRecord =>
    let b ← vBase now o none none
    let stats ← vReq o "stats" decStats
    return .runInfo b stats

/-- Source `logrecord_from_json` from `json.py`, on an already-parsed object: select
the model class from `type`/`event`, strip the transport keys `type`, `event`
and `levelname`, then validate the remaining fields.  The ambient clock used
by the `created` default is injected as `now`. -/
def logrecord_from_json (now : ℚ) (data : JsonObj) :
    Except JsonParseError JsonLogRecord := do
  let model ← getRecordModel data
  let obj := objRemove (objRemove (objRemove data "type") "event") "levelname"
  validateModel now model obj

-- ------------------------------------------------------------------ --
--  stuff.py: the run reducer                                          --
-- ------------------------------------------------------------------ --

/-- Source `JobInfo` from `stuff.py` (the reducer entity, not the record).
`datetime` values are embedded as their POSIX timestamp (`ℚ`), so
`record.created_dt` is just `record.created`.  The `benchmark` field is
annotated `list[str] | None` in the source but is assigned the record's
`str | None` value by `from_record`, so it is embedded at `Option String`. -/
structure JobInfo where
  id : Int
  rule_name : String
  threads : Int
  input : Option (List String) := none
  output : Option (List String) := none
  log : Option (List String) := none
  benchmark : Option String := none
  wildcards : Option JsonObj := none
  reason : Option String := none
  shellcmd : Option String := none
  priority : Option Int := none
  started : Option ℚ := none
  finished : Option ℚ := none
  logs : List JsonLogRecord := []

/-- Source `JobInfo.from_record`: build the entity from a `JobInfoRecord`'s fields
(the record's constructor arguments).  `reason` and `shellcmd` are not copied
by the source and keep their defaults; `logs` starts as `[record]` and
`started` is the record's creation time. -/
def JobInfo.fromRecord (base : RecBase) (jobid : Int) (rule_name : String)
    (threads : Int) (input output log : Option (List String))
    (benchmark rule_msg : Option String) (wildcards : Option JsonObj)
    (reason shellcmd : Option String) (priority : Option Int)
    (resources : Option DictOrList) : JobInfo :=
  { id := jobid
    rule_name := rule_name
    threads := threads
    input := input
    output := output
    log := log
    benchmark := benchmark
    wildcards := wildcards
    priority := priority
    started := some base.created
    logs := [.jobInfo base jobid rule_name threads input output log benchmark
               rule_msg wildcards reason shellcmd priority resources] }

/-- Lookup in an insertion-ordered dict with `Int` keys (keys are unique). -/
def dictGet (l : List (Int × α)) (k : Int) : Option α :=
  match l with
  | [] => none
  | (k', v) :: t => if k' = k then some v else dictGet t k

/-- Source `d[k] = v` on an insertion-ordered dict: update the existing entry in
place, or append a new entry. -/
def dictSet (l : List (Int × α)) (k : Int) (v : α) : List (Int × α) :=
  match l with
  | [] => [(k, v)]
  | (k', v') :: t => if k' = k then (k, v) :: t else (k', v') :: dictSet t k v

/-- Source `d.pop(k)`: drop the entry with the given key. -/
def dictRemove (l : List (Int × α)) (k : Int) : List (Int × α) :=
  l.filter (fun kv => kv.1 ≠ k)

/-- Source `self._job_logs.setdefault(jobid, []).append(record)`. -/
def pendingAdd (l : List (Int × List JsonLogRecord)) (k : Int)
    (r : JsonLogRecord) : List (Int × List JsonLogRecord) :=
  match dictGet l k with
  | some rs => dictSet l k (rs ++ [r])
  | none => l ++ [(k, [r])]

/-- Source `RunStatus` from `stuff.py`.  `workflow_id` (a `UUID`), `snakefile` and
`workdir` (paths) are embedded as strings; the `rulegraph` field is annotated
`Any = None` and only ever holds a `RulegraphRecord.rulegraph` payload, so it
is embedded at `Option JsonObj`.  `job_logs` is the private `_job_logs`
pending buffer created in `__post_init__`. -/
structure RunStatus where
  started : ℚ
  finished : Option ℚ := none
  workdir : Option String := none
  workflow_id : Option String := none
  snakefile : Option String := none
  rulegraph : Option JsonObj := none
  logs : List JsonLogRecord := []
  jobs : List (Int × JobInfo) := []
  job_logs : List (Int × List JsonLogRecord) := []

/-- Source `RunStatus(started=...)`: fresh reducer state. -/
def RunStatus.init (started : ℚ) : RunStatus :=
  { started := started }

/-- Source `RunStatus._process_record_base`: append the record to `logs`. -/
def processRecordBase (s : RunStatus) (r : JsonLogRecord) : RunStatus :=
  { s with logs := s.logs ++ [r] }

/-- One iteration of the job-association loop in
`_process_snakemake_record`: append the record to the job's log list when the
job is known, otherwise to the pending buffer for that id. -/
def addToJob (s : RunStatus) (r : JsonLogRecord) (jobid : Int) : RunStatus :=
  match dictGet s.jobs jobid with
  | some job =>
    { s with jobs := dictSet s.jobs jobid { job with logs := job.logs ++ [r] } }
  | none => { s with job_logs := pendingAdd s.job_logs jobid r }

/-- Source `RunStatus._process_snakemake_record`: base bookkeeping, then (unless
`add_to_job` is false) the job-association loop over
`record.associated_jobs()`. -/
def processSnakemakeRecord (s : RunStatus) (r : JsonLogRecord)
    (add_to_job : Bool) : RunStatus :=
  let s := processRecordBase s r
  if add_to_job then r.associatedJobs.foldl (fun s j => addToJob s r j) s else s

/-- Source `RunStatus._process_job_info`.  Returns the state as mutated up to the
point of return or raise, together with the raised `ValueError` message if
any. -/
def processJobInfo (s : RunStatus) (base : RecBase) (jobid : Int)
    (rule_name : String) (threads : Int) (input output log : Option (List String))
    (benchmark rule_msg : Option String) (wildcards : Option JsonObj)
    (reason shellcmd : Option String) (priority : Option Int)
    (resources : Option DictOrList) : RunStatus × Option String :=
  if (dictGet s.jobs jobid).isSome then
    (s, some ("Duplicate JOB_INFO event for job " ++ toString jobid))
  else
    let job := JobInfo.fromRecord base jobid rule_name threads input output log
      benchmark rule_msg wildcards reason shellcmd priority resources
    let s := { s with jobs := dictSet s.jobs jobid job }
    let s :=
      match dictGet s.job_logs jobid with
      | some pending =>
        { s with jobs := dictSet s.jobs jobid { job with logs := job.logs ++ pending }
                 job_logs := dictRemove s.job_logs jobid }
      | none => s
    (processSnakemakeRecord s
      (.jobInfo base jobid rule_name threads input output log benchmark
        rule_msg wildcards reason shellcmd priority resources) false, none)

/-- Source `RunStatus._process_job_finished`.  `if job.finished:` tests the
truthiness of an optional `datetime`, i.e. whether it is set. -/
def processJobFinished (s : RunStatus) (base : RecBase) (job_id : Int) :
    RunStatus × Option String :=
  match dictGet s.jobs job_id with
  | none => (s, some ("JOB_FINISHED event before JOB_INFO for job " ++ toString job_id))
  | some job =>
    if job.finished.isSome then
      (s, some ("Duplicate JOB_FINISHED event for job " ++ toString job.id))
    else
      let s := { s with jobs := dictSet s.jobs job_id { job with finished := some base.created } }
      (processSnakemakeRecord s (.jobFinished base job_id) true, none)

/-- Source `RunStatus._process_workflow_started`. -/
def processWorkflowStarted (s : RunStatus) (base : RecBase)
    (workflow_id : String) (snakefile : Option String) :
    RunStatus × Option String :=
  if s.workflow_id.isSome then
    (s, some "Duplicate WORKFLOW_STARTED event")
  else
    let s := { s with workflow_id := some workflow_id }
    let s :=
      match snakefile with
      | some p => { s with snakefile := some p }
      | none => s
    (processSnakemakeRecord s (.workflowStarted base workflow_id snakefile) true, none)

/-- Source `RunStatus._process_rulegraph`. -/
def processRulegraph (s : RunStatus) (base : RecBase) (rg : Option JsonObj) :
    RunStatus × Option String :=
  if s.rulegraph.isSome then
    (s, some "Duplicate RULEGRAPH event")
  else
    (processSnakemakeRecord { s with rulegraph := rg } (.rulegraphRec base rg) true, none)

/-- Source `RunStatus.process_record`: single-dispatch on the record's concrete
class — explicitly registered handlers first, then the `SnakemakeLogRecord`
handler, then the base implementation. -/
def processRecord (s : RunStatus) (r : JsonLogRecord) : RunStatus × Option String :=
  match r with
  | .jobInfo b jobid rn th i o l bm rm w re sc pr rs =>
    processJobInfo s b jobid rn th i o l bm rm w re sc pr rs
  | .jobFinished b j => processJobFinished s b j
  | .workflowStarted b wid sf => processWorkflowStarted s b wid sf
  | .rulegraphRec b rg => processRulegraph s b rg
  | r =>
    if r.isSnakemake then (processSnakemakeRecord s r true, none)
    else (processRecordBase s r, none)

/-- Fold `process_record` over a record sequence, stopping at the first
raised error (which aborts reduction). -/
def processAll (s : RunStatus) : List JsonLogRecord → RunStatus × Option String
  | [] => (s, none)
  | r :: rs =>
    match processRecord s r with
    | (s', none) => processAll s' rs
    | (s', some e) => (s', some e)

-- ------------------------------------------------------------------ --
--  Helper lemmas                                                      --
-- ------------------------------------------------------------------ --

theorem okBind {α β ε : Type} (a : α) (f : α → Except ε β) :
    (Except.ok a >>= f : Except ε β) = f a := rfl

theorem decStrOpt_dump (m : Option String) : decStrOpt (dumpOpt .str m) = some m := by
  cases m <;> rfl

theorem decFloatOpt_dump (q : Option ℚ) : decFloatOpt (dumpOpt .num q) = some q := by
  cases q <;> rfl

theorem decIntOpt_dump (n : Option Int) : decIntOpt (dumpOpt .int n) = some n := by
  cases n <;> rfl

theorem decExcInfoOpt_dump (e : Option ExceptionInfo) :
    decExcInfoOpt (dumpOpt dumpExcInfo e) = some e := by
  cases e with
  | none => rfl
  | some e => cases e; rfl

theorem decStrList_dump (l : List String) : decStrList (l.map .str) = some l := by
  induction l with
  | nil => rfl
  | cons h t ih => simp [decStrList, decStr, ih]

theorem decStrListOpt_dump (l : Option (List String)) :
    decStrListOpt (dumpOpt dumpStrList l) = some l := by
  cases l with
  | none => rfl
  | some l => simp [decStrListOpt, dumpOpt, dumpStrList, decStrList_dump]

theorem decIntList_dump (l : List Int) : decIntList (l.map .int) = some l := by
  induction l with
  | nil => rfl
  | cons h t ih => simp [decIntList, decInt, ih]

theorem decIntListVal_dump (l : List Int) : decIntListVal (dumpIntList l) = some l := by
  simp [decIntListVal, dumpIntList, decIntList_dump]

theorem decObjOpt_dump (o : Option JsonObj) : decObjOpt (dumpOpt .obj o) = some o := by
  cases o <;> rfl

theorem decDictOrListOpt_dump (r : Option DictOrList) :
    decDictOrListOpt (dumpOpt dumpDictOrList r) = some r := by
  cases r with
  | none => rfl
  | some r => cases r <;> rfl

theorem decPathOpt_dump (p : Option String) : decPathOpt (dumpOpt .str p) = some p := by
  cases p <;> rfl

theorem decStatsEntries_dump (l : List (String × Int)) :
    decStatsEntries (l.map fun kv => (kv.1, .int kv.2)) = some l := by
  induction l with
  | nil => rfl
  | cons h t ih => simp [decStatsEntries, decInt, ih]

theorem decStats_dump (l : List (String × Int)) : decStats (dumpStats l) = some l := by
  simp [decStats, dumpStats, decStatsEntries_dump]

/-- The model class `_get_record_model` selects for each concrete variant. -/
def modelOf : JsonLogRecord → ModelClass
  | .standard _ => .standardLogRecord
  | .loggingStarted _ _ _ => .loggingStartedRecord
  | .formattingError _ _ _ => .formattingErrorRecord
  | .errorRec _ _ _ _ _ _ _ => .errorRecord
  | .workflowStarted _ _ _ => .workflowStartedRecord
  | .jobInfo _ _ _ _ _ _ _ _ _ _ _ _ _ _ => .jobInfoRecord
  | .jobStarted _ _ => .jobStartedRecord
  | .jobFinished _ _ => .jobFinishedRecord
  | .shellCmd _ _ _ _ => .shellCmdRecord
  | .jobError _ _ => .jobErrorRecord
  | .groupInfo _ _ _ => .groupInfoRecord
  | .groupError _ _ _ _ => .groupErrorRecord
  | .resourcesInfo _ _ _ _ => .resourcesInfoRecord
  | .debugDag _ _ _ _ _ => .debugDagRecord
  | .progress _ _ _ => .progressRecord
  | .rulegraphRec _ _ => .rulegraphRecord
  | .runInfo _ _ => .runInfoRecord

set_option maxHeartbeats 1000000 in
/-- On a serialized record, `_get_record_model` picks the record's own model
class, and decoding proceeds to validation of the stripped object. -/
theorem from_json_serialize (now : ℚ) (r : JsonLogRecord) :
    logrecord_from_json now (serializeRecord r) =
      validateModel now (modelOf r)
        (objRemove (objRemove (objRemove (serializeRecord r) "type") "event") "levelname") := by
  cases r with
  | standard b =>
    obtain ⟨msg, lvl, crt, exc⟩ := b
    cases exc <;> rfl
  | loggingStarted b pid ps =>
    obtain ⟨msg, lvl, crt, exc⟩ := b
    cases exc <;> rfl
  | formattingError b rp ex =>
    obtain ⟨msg, lvl, crt, exc⟩ := b
    cases exc <;> rfl
  | errorRec b e1 l1 r1 t1 f1 n1 =>
    obtain ⟨msg, lvl, crt, exc⟩ := b
    cases exc <;> rfl
  | workflowStarted b wid sf =>
    obtain ⟨msg, lvl, crt, exc⟩ := b
    cases exc <;> rfl
  | jobInfo b jid rn th i1 o1 lg bm rm wc re sc pr rs =>
    obtain ⟨msg, lvl, crt, exc⟩ := b
    cases exc <;> rfl
  | jobStarted b jbs =>
    obtain ⟨msg, lvl, crt, exc⟩ := b
    cases exc <;> rfl
  | jobFinished b jid =>
    obtain ⟨msg, lvl, crt, exc⟩ := b
    cases exc <;> rfl
  | shellCmd b jid sc rn =>
    obtain ⟨msg, lvl, crt, exc⟩ := b
    cases exc <;> rfl
  | jobError b jid =>
    obtain ⟨msg, lvl, crt, exc⟩ := b
    cases exc <;> rfl
  | groupInfo b gid jbs =>
    obtain ⟨msg, lvl, crt, exc⟩ := b
    cases exc <;> rfl
  | groupError b gid al jei =>
    obtain ⟨msg, lvl, crt, exc⟩ := b
    cases exc <;> rfl
  | resourcesInfo b nd cr pr =>
    obtain ⟨msg, lvl, crt, exc⟩ := b
    cases exc <;> rfl
  | debugDag b st1 jb f1 e1 =>
    obtain ⟨msg, lvl, crt, exc⟩ := b
    cases exc <;> rfl
  | progress b dn tt =>
    obtain ⟨msg, lvl, crt, exc⟩ := b
    cases exc <;> rfl
  | rulegraphRec b rg =>
    obtain ⟨msg, lvl, crt, exc⟩ := b
    cases exc <;> rfl
  | runInfo b st1 =>
    obtain ⟨msg, lvl, crt, exc⟩ := b
    cases exc <;> rfl

set_option maxHeartbeats 1000000 in
/-- Object-level round-trip: decoding a serialized record recovers the record,
for every concrete variant and every field valuation. -/
theorem serialize_roundtrip (now : ℚ) (r : JsonLogRecord) :
    logrecord_from_json now (serializeRecord r) = .ok r := by
  cases r with
  | standard b =>
    rw [from_json_serialize]
    obtain ⟨msg, lvl, crt, exc⟩ := b
    cases exc <;>
      simp [validateModel, vBase, vReq, vOpt, objGet, objRemove, List.filter,
        serializeRecord, delNullExcInfo, dumpFields, dumpBase, modelOf,
        JsonLogRecord.typeTag, JsonLogRecord.eventTag, JsonLogRecord.base, okBind,
        decStrOpt_dump, decFloatOpt_dump, decIntOpt_dump, decExcInfoOpt_dump,
        decStrListOpt_dump, decIntListVal_dump, decObjOpt_dump, decDictOrListOpt_dump,
        decPathOpt_dump, decStats_dump, decStr, decInt, decFloat, decUuid, decObj,
        decAny, decAnyList]
  | loggingStarted b pid ps =>
    rw [from_json_serialize]
    obtain ⟨msg, lvl, crt, exc⟩ := b
    cases exc <;>
      simp [validateModel, vBase, vReq, vOpt, objGet, objRemove, List.filter,
        serializeRecord, delNullExcInfo, dumpFields, dumpBase, modelOf,
        JsonLogRecord.typeTag, JsonLogRecord.eventTag, JsonLogRecord.base, okBind,
        decStrOpt_dump, decFloatOpt_dump, decIntOpt_dump, decExcInfoOpt_dump,
        decStrListOpt_dump, decIntListVal_dump, decObjOpt_dump, decDictOrListOpt_dump,
        decPathOpt_dump, decStats_dump, decStr, decInt, decFloat, decUuid, decObj,
        decAny, decAnyList]
  | formattingError b rp ex =>
    rw [from_json_serialize]
    obtain ⟨msg, lvl, crt, exc⟩ := b
    cases exc <;>
      simp [validateModel, vBase, vReq, vOpt, objGet, objRemove, List.filter,
        serializeRecord, delNullExcInfo, dumpFields, dumpBase, modelOf,
        JsonLogRecord.typeTag, JsonLogRecord.eventTag, JsonLogRecord.base, okBind,
        decStrOpt_dump, decFloatOpt_dump, decIntOpt_dump, decExcInfoOpt_dump,
        decStrListOpt_dump, decIntListVal_dump, decObjOpt_dump, decDictOrListOpt_dump,
        decPathOpt_dump, decStats_dump, decStr, decInt, decFloat, decUuid, decObj,
        decAny, decAnyList]
  | errorRec b e1 l1 r1 t1 f1 n1 =>
    rw [from_json_serialize]
    obtain ⟨msg, lvl, crt, exc⟩ := b
    cases exc <;>
      simp [validateModel, vBase, vReq, vOpt, objGet, objRemove, List.filter,
        serializeRecord, delNullExcInfo, dumpFields, dumpBase, modelOf,
        JsonLogRecord.typeTag, JsonLogRecord.eventTag, JsonLogRecord.base, okBind,
        decStrOpt_dump, decFloatOpt_dump, decIntOpt_dump, decExcInfoOpt_dump,
        decStrListOpt_dump, decIntListVal_dump, decObjOpt_dump, decDictOrListOpt_dump,
        decPathOpt_dump, decStats_dump, decStr, decInt, decFloat, decUuid, decObj,
        decAny, decAnyList]
  | workflowStarted b wid sf =>
    rw [from_json_serialize]
    obtain ⟨msg, lvl, crt, exc⟩ := b
    cases exc <;>
      simp [validateModel, vBase, vReq, vOpt, objGet, objRemove, List.filter,
        serializeRecord, delNullExcInfo, dumpFields, dumpBase, modelOf,
        JsonLogRecord.typeTag, JsonLogRecord.eventTag, JsonLogRecord.base, okBind,
        decStrOpt_dump, decFloatOpt_dump, decIntOpt_dump, decExcInfoOpt_dump,
        decStrListOpt_dump, decIntListVal_dump, decObjOpt_dump, decDictOrListOpt_dump,
        decPathOpt_dump, decStats_dump, decStr, decInt, decFloat, decUuid, decObj,
        decAny, decAnyList]
  | jobInfo b jid rn th i1 o1 lg bm rm wc re sc pr rs =>
    rw [from_json_serialize]
    obtain ⟨msg, lvl, crt, exc⟩ := b
    cases exc <;>
      simp [validateModel, vBase, vReq, vOpt, objGet, objRemove, List.filter,
        serializeRecord, delNullExcInfo, dumpFields, dumpBase, modelOf,
        JsonLogRecord.typeTag, JsonLogRecord.eventTag, JsonLogRecord.base, okBind,
        decStrOpt_dump, decFloatOpt_dump, decIntOpt_dump, decExcInfoOpt_dump,
        decStrListOpt_dump, decIntListVal_dump, decObjOpt_dump, decDictOrListOpt_dump,
        decPathOpt_dump, decStats_dump, decStr, decInt, decFloat, decUuid, decObj,
        decAny, decAnyList]
  | jobStarted b jbs =>
    rw [from_json_serialize]
    obtain ⟨msg, lvl, crt, exc⟩ := b
    cases exc <;>
      simp [validateModel, vBase, vReq, vOpt, objGet, objRemove, List.filter,
        serializeRecord, delNullExcInfo, dumpFields, dumpBase, modelOf,
        JsonLogRecord.typeTag, JsonLogRecord.eventTag, JsonLogRecord.base, okBind,
        decStrOpt_dump, decFloatOpt_dump, decIntOpt_dump, decExcInfoOpt_dump,
        decStrListOpt_dump, decIntListVal_dump, decObjOpt_dump, decDictOrListOpt_dump,
        decPathOpt_dump, decStats_dump, decStr, decInt, decFloat, decUuid, decObj,
        decAny, decAnyList]
  | jobFinished b jid =>
    rw [from_json_serialize]
    obtain ⟨msg, lvl, crt, exc⟩ := b
    cases exc <;>
      simp [validateModel, vBase, vReq, vOpt, objGet, objRemove, List.filter,
        serializeRecord, delNullExcInfo, dumpFields, dumpBase, modelOf,
        JsonLogRecord.typeTag, JsonLogRecord.eventTag, JsonLogRecord.base, okBind,
        decStrOpt_dump, decFloatOpt_dump, decIntOpt_dump, decExcInfoOpt_dump,
        decStrListOpt_dump, decIntListVal_dump, decObjOpt_dump, decDictOrListOpt_dump,
        decPathOpt_dump, decStats_dump, decStr, decInt, decFloat, decUuid, decObj,
        decAny, decAnyList]
  | shellCmd b jid sc rn =>
    rw [from_json_serialize]
    obtain ⟨msg, lvl, crt, exc⟩ := b
    cases exc <;>
      simp [validateModel, vBase, vReq, vOpt, objGet, objRemove, List.filter,
        serializeRecord, delNullExcInfo, dumpFields, dumpBase, modelOf,
        JsonLogRecord.typeTag, JsonLogRecord.eventTag, JsonLogRecord.base, okBind,
        decStrOpt_dump, decFloatOpt_dump, decIntOpt_dump, decExcInfoOpt_dump,
        decStrListOpt_dump, decIntListVal_dump, decObjOpt_dump, decDictOrListOpt_dump,
        decPathOpt_dump, decStats_dump, decStr, decInt, decFloat, decUuid, decObj,
        decAny, decAnyList]
  | jobError b jid =>
    rw [from_json_serialize]
    obtain ⟨msg, lvl, crt, exc⟩ := b
    cases exc <;>
      simp [validateModel, vBase, vReq, vOpt, objGet, objRemove, List.filter,
        serializeRecord, delNullExcInfo, dumpFields, dumpBase, modelOf,
        JsonLogRecord.typeTag, JsonLogRecord.eventTag, JsonLogRecord.base, okBind,
        decStrOpt_dump, decFloatOpt_dump, decIntOpt_dump, decExcInfoOpt_dump,
        decStrListOpt_dump, decIntListVal_dump, decObjOpt_dump, decDictOrListOpt_dump,
        decPathOpt_dump, decStats_dump, decStr, decInt, decFloat, decUuid, decObj,
        decAny, decAnyList]
  | groupInfo b gid jbs =>
    rw [from_json_serialize]
    obtain ⟨msg, lvl, crt, exc⟩ := b
    cases exc <;>
      simp [validateModel, vBase, vReq, vOpt, objGet, objRemove, List.filter,
        serializeRecord, delNullExcInfo, dumpFields, dumpBase, modelOf,
        JsonLogRecord.typeTag, JsonLogRecord.eventTag, JsonLogRecord.base, okBind,
        decStrOpt_dump, decFloatOpt_dump, decIntOpt_dump, decExcInfoOpt_dump,
        decStrListOpt_dump, decIntListVal_dump, decObjOpt_dump, decDictOrListOpt_dump,
        decPathOpt_dump, decStats_dump, decStr, decInt, decFloat, decUuid, decObj,
        decAny, decAnyList]
  | groupError b gid al jei =>
    rw [from_json_serialize]
    obtain ⟨msg, lvl, crt, exc⟩ := b
    cases exc <;>
      simp [validateModel, vBase, vReq, vOpt, objGet, objRemove, List.filter,
        serializeRecord, delNullExcInfo, dumpFields, dumpBase, modelOf,
        JsonLogRecord.typeTag, JsonLogRecord.eventTag, JsonLogRecord.base, okBind,
        decStrOpt_dump, decFloatOpt_dump, decIntOpt_dump, decExcInfoOpt_dump,
        decStrListOpt_dump, decIntListVal_dump, decObjOpt_dump, decDictOrListOpt_dump,
        decPathOpt_dump, decStats_dump, decStr, decInt, decFloat, decUuid, decObj,
        decAny, decAnyList]
  | resourcesInfo b nd cr pr =>
    rw [from_json_serialize]
    obtain ⟨msg, lvl, crt, exc⟩ := b
    cases exc <;>
      simp [validateModel, vBase, vReq, vOpt, objGet, objRemove, List.filter,
        serializeRecord, delNullExcInfo, dumpFields, dumpBase, modelOf,
        JsonLogRecord.typeTag, JsonLogRecord.eventTag, JsonLogRecord.base, okBind,
        decStrOpt_dump, decFloatOpt_dump, decIntOpt_dump, decExcInfoOpt_dump,
        decStrListOpt_dump, decIntListVal_dump, decObjOpt_dump, decDictOrListOpt_dump,
        decPathOpt_dump, decStats_dump, decStr, decInt, decFloat, decUuid, decObj,
        decAny, decAnyList]
  | debugDag b st1 jb f1 e1 =>
    rw [from_json_serialize]
    obtain ⟨msg, lvl, crt, exc⟩ := b
    cases exc <;>
      simp [validateModel, vBase, vReq, vOpt, objGet, objRemove, List.filter,
        serializeRecord, delNullExcInfo, dumpFields, dumpBase, modelOf,
        JsonLogRecord.typeTag, JsonLogRecord.eventTag, JsonLogRecord.base, okBind,
        decStrOpt_dump, decFloatOpt_dump, decIntOpt_dump, decExcInfoOpt_dump,
        decStrListOpt_dump, decIntListVal_dump, decObjOpt_dump, decDictOrListOpt_dump,
        decPathOpt_dump, decStats_dump, decStr, decInt, decFloat, decUuid, decObj,
        decAny, decAnyList]
  | progress b dn tt =>
    rw [from_json_serialize]
    obtain ⟨msg, lvl, crt, exc⟩ := b
    cases exc <;>
      simp [validateModel, vBase, vReq, vOpt, objGet, objRemove, List.filter,
        serializeRecord, delNullExcInfo, dumpFields, dumpBase, modelOf,
        JsonLogRecord.typeTag, JsonLogRecord.eventTag, JsonLogRecord.base, okBind,
        decStrOpt_dump, decFloatOpt_dump, decIntOpt_dump, decExcInfoOpt_dump,
        decStrListOpt_dump, decIntListVal_dump, decObjOpt_dump, decDictOrListOpt_dump,
        decPathOpt_dump, decStats_dump, decStr, decInt, decFloat, decUuid, decObj,
        decAny, decAnyList]
  | rulegraphRec b rg =>
    rw [from_json_serialize]
    obtain ⟨msg, lvl, crt, exc⟩ := b
    cases exc <;>
      simp [validateModel, vBase, vReq, vOpt, objGet, objRemove, List.filter,
        serializeRecord, delNullExcInfo, dumpFields, dumpBase, modelOf,
        JsonLogRecord.typeTag, JsonLogRecord.eventTag, JsonLogRecord.base, okBind,
        decStrOpt_dump, decFloatOpt_dump, decIntOpt_dump, decExcInfoOpt_dump,
        decStrListOpt_dump, decIntListVal_dump, decObjOpt_dump, decDictOrListOpt_dump,
        decPathOpt_dump, decStats_dump, decStr, decInt, decFloat, decUuid, decObj,
        decAny, decAnyList]
  | runInfo b st1 =>
    rw [from_json_serialize]
    obtain ⟨msg, lvl, crt, exc⟩ := b
    cases exc <;>
      simp [validateModel, vBase, vReq, vOpt, objGet, objRemove, List.filter,
        serializeRecord, delNullExcInfo, dumpFields, dumpBase, modelOf,
        JsonLogRecord.typeTag, JsonLogRecord.eventTag, JsonLogRecord.base, okBind,
        decStrOpt_dump, decFloatOpt_dump, decIntOpt_dump, decExcInfoOpt_dump,
        decStrListOpt_dump, decIntListVal_dump, decObjOpt_dump, decDictOrListOpt_dump,
        decPathOpt_dump, decStats_dump, decStr, decInt, decFloat, decUuid, decObj,
        decAny, decAnyList]

-- ------------------------------------------------------------------ --
--  Boundary-parser lemmas                                             --
-- ------------------------------------------------------------------ --

theorem dropWhile_head_false (p : Char → Bool) (l : List Char) :
    l.dropWhile p = [] ∨ ∃ c t, l.dropWhile p = c :: t ∧ p c = false := by
  induction l with
  | nil => left; rfl
  | cons h t ih =>
    by_cases hp : p h
    · simpa [List.dropWhile, hp] using ih
    · right
      exact ⟨h, t, by simp [List.dropWhile, hp], by simpa using hp⟩

/-- After `rstrip`, a line is never whitespace-only in Python's sense: the
`line.isspace()` test in `process_line` can never fire (`"".isspace()` is
`False`). -/
theorem pyIsSpace_pyRstrip (s : String) : pyIsSpace (pyRstrip s) = false := by
  show (!(pyRstrip s).data.isEmpty && (pyRstrip s).data.all pySpaceChar) = false
  have hd : (pyRstrip s).data = (s.data.reverse.dropWhile pySpaceChar).reverse := rfl
  rw [hd]
  rcases dropWhile_head_false pySpaceChar s.data.reverse with h | ⟨c, t, h, hc⟩
  · rw [h]; rfl
  · rw [h]
    have hall : (c :: t).reverse.all pySpaceChar = false := by
      rw [List.all_reverse, List.all_cons, hc, Bool.false_and]
    rw [hall, Bool.and_false]

/-- A line consisting only of whitespace characters rstrips to the empty
string. -/
theorem pyRstrip_all_space (s : String) (h : s.data.all pySpaceChar = true) :
    pyRstrip s = "" := by
  unfold pyRstrip
  have : s.data.reverse.dropWhile pySpaceChar = [] := by
    apply List.dropWhile_eq_nil_iff.mpr
    intro x hx
    exact (List.all_eq_true.mp h) x (List.mem_reverse.mp hx)
  simp [this]

/-- One object of the stream, in either of the two supported encodings:
a complete single-line object, or a pretty multi-line block consisting of an
unindented `{` line, interior lines, and an unindented `}` line. -/
inductive Chunk where
  | single (line : String)
  | multi (opener : String) (mids : List String) (closer : String)

/-- The text lines of a chunk. -/
def Chunk.lines : Chunk → List String
  | .single l => [l]
  | .multi o ms c => o :: (ms ++ [c])

/-- The number of lines of a chunk. -/
def Chunk.lineCount : Chunk → Nat
  | .single _ => 1
  | .multi _ ms _ => ms.length + 2

/-- Well-formedness of a chunk with respect to the JSON decoder `loads`:
a single line starts with a brace, is not a bare `{`, and decodes to an
object; a multi-line block opens with a bare unindented `{`, has no interior
line that rstrips to `}`, closes with a bare `}`, and its accumulated text
decodes. -/
def Chunk.OK (loads : String → Option JsonValue) : Chunk → Prop
  | .single l => startsWithBrace (pyRstrip l) = true ∧ pyRstrip l ≠ "\x7b" ∧
      ∃ kvs, loads (pyRstrip l) = some (.obj kvs)
  | .multi o ms c => pyRstrip o = "\x7b" ∧ (∀ m ∈ ms, pyRstrip m ≠ "\x7d") ∧
      pyRstrip c = "\x7d" ∧
      (loads (String.join ("\x7b" :: (ms.map pyRstrip ++ ["\x7d"])))).isSome = true

/-- The decoded value of a chunk. -/
def Chunk.value (loads : String → Option JsonValue) : Chunk → JsonValue
  | .single l => (loads (pyRstrip l)).getD .null
  | .multi _ ms _ => (loads (String.join ("\x7b" :: (ms.map pyRstrip ++ ["\x7d"])))).getD .null

/-- The lines of a chunk stream. -/
def chunkLines : List Chunk → List String
  | [] => []
  | c :: cs => c.lines ++ chunkLines cs

/-- Total number of lines of a chunk stream. -/
def totalLines : List Chunk → Nat
  | [] => 0
  | c :: cs => c.lineCount + totalLines cs

/-- The expected parse results of a chunk stream starting after line `n`:
one result per chunk, whose start line is the chunk's first line and whose
end line is the chunk's last line. -/
def chunkResults (loads : String → Option JsonValue) (n : Nat) :
    List Chunk → List ObjParseResult
  | [] => []
  | c :: cs =>
    (n + 1, n + c.lineCount, c.value loads) :: chunkResults loads (n + c.lineCount) cs

theorem processLine_single (loads : String → Option JsonValue) (n started : Nat)
    (l : String) (kvs : JsonObj)
    (h1 : startsWithBrace (pyRstrip l) = true) (h2 : pyRstrip l ≠ "\x7b")
    (h3 : loads (pyRstrip l) = some (.obj kvs)) :
    processLine loads ⟨n, [], started⟩ l =
      (⟨n + 1, [], started⟩, .ok (some (n + 1, n + 1, .obj kvs))) := by
  simp [processLine, pyIsSpace_pyRstrip, h2, h1, h3]

theorem processLine_opener (loads : String → Option JsonValue) (n started : Nat)
    (l : String) (h : pyRstrip l = "\x7b") :
    processLine loads ⟨n, [], started⟩ l =
      (⟨n + 1, ["\x7b"], n + 1⟩, .ok none) := by
  have hsp : pyIsSpace "\x7b" = false := by rw [← h]; exact pyIsSpace_pyRstrip l
  simp [processLine, h, hsp]

theorem processLine_mid (loads : String → Option JsonValue) (n started : Nat)
    (obj : List String) (l : String) (hobj : obj ≠ [])
    (h : pyRstrip l ≠ "\x7d") :
    processLine loads ⟨n, obj, started⟩ l =
      (⟨n + 1, obj ++ [pyRstrip l], started⟩, .ok none) := by
  simp [processLine, pyIsSpace_pyRstrip, hobj, h]

theorem processLine_closer (loads : String → Option JsonValue) (n started : Nat)
    (obj : List String) (l : String) (v : JsonValue) (hobj : obj ≠ [])
    (h : pyRstrip l = "\x7d")
    (hv : loads (String.join (obj ++ ["\x7d"])) = some v) :
    processLine loads ⟨n, obj, started⟩ l =
      (⟨n + 1, [], 0⟩, .ok (some (started, n + 1, v))) := by
  have hsp : pyIsSpace "\x7d" = false := by rw [← h]; exact pyIsSpace_pyRstrip l
  simp [processLine, hobj, h, hsp, hv]

theorem processLines_mids (loads : String → Option JsonValue) (n started : Nat)
    (obj : List String) (hobj : obj ≠ []) (mids rest : List String)
    (h : ∀ m ∈ mids, pyRstrip m ≠ "\x7d") :
    processLines loads ⟨n, obj, started⟩ (mids ++ rest) =
      processLines loads ⟨n + mids.length, obj ++ mids.map pyRstrip, started⟩ rest := by
  induction mids generalizing n obj with
  | nil => simp
  | cons m ms ih =>
    have hm := h m (by simp)
    have hms : ∀ x ∈ ms, pyRstrip x ≠ "\x7d" := fun x hx => h x (by simp [hx])
    have hstep : processLines loads ⟨n, obj, started⟩ ((m :: ms) ++ rest) =
        processLines loads ⟨n + 1, obj ++ [pyRstrip m], started⟩ (ms ++ rest) := by
      simp only [List.cons_append, processLines, List.append_eq,
        processLine_mid loads n started obj m hobj hm]
    rw [hstep, ih (n + 1) (obj ++ [pyRstrip m]) (by simp) hms]
    have e1 : n + 1 + ms.length = n + (m :: ms).length := by simp; omega
    have e2 : (obj ++ [pyRstrip m]) ++ ms.map pyRstrip = obj ++ (m :: ms).map pyRstrip := by
      simp
    rw [e1, e2]

theorem processLines_chunk (loads : String → Option JsonValue) (c : Chunk)
    (h : c.OK loads) (n : Nat) (rest : List String) :
    processLines loads ⟨n, [], 0⟩ (c.lines ++ rest) =
      (let r := processLines loads ⟨n + c.lineCount, [], 0⟩ rest
       (r.1, (n + 1, n + c.lineCount, c.value loads) :: r.2.1, r.2.2)) := by
  cases c with
  | single l =>
    obtain ⟨h1, h2, kvs, h3⟩ := h
    simp only [Chunk.lines, List.cons_append, List.nil_append, processLines,
      processLine_single loads n 0 l kvs h1 h2 h3]
    simp [Chunk.lineCount, Chunk.value, h3]
  | multi o ms cl =>
    obtain ⟨h1, h2, h3, h4⟩ := h
    obtain ⟨v, hv⟩ := Option.isSome_iff_exists.mp h4
    have hstep : processLines loads ⟨n, [], 0⟩ ((Chunk.multi o ms cl).lines ++ rest) =
        processLines loads ⟨n + 1, ["\x7b"], n + 1⟩ (ms ++ (cl :: rest)) := by
      simp only [Chunk.lines, List.cons_append, List.append_assoc, List.singleton_append,
        processLines, List.append_eq, List.nil_append,
        processLine_opener loads n 0 o h1]
    rw [hstep,
      processLines_mids loads (n + 1) (n + 1) ["\x7b"] (by simp) ms (cl :: rest) h2]
    simp only [List.singleton_append]
    have hclose : processLines loads
        ⟨n + 1 + ms.length, "\x7b" :: ms.map pyRstrip, n + 1⟩ (cl :: rest) =
        (let r := processLines loads ⟨n + 1 + ms.length + 1, [], 0⟩ rest
         (r.1, (n + 1, n + 1 + ms.length + 1, v) :: r.2.1, r.2.2)) := by
      simp only [processLines, List.append_eq,
        processLine_closer loads (n + 1 + ms.length) (n + 1) ("\x7b" :: ms.map pyRstrip)
          cl v (by simp) h3 (by simpa using hv)]
    rw [hclose]
    have e1 : n + 1 + ms.length + 1 = n + (Chunk.multi o ms cl).lineCount := by
      simp [Chunk.lineCount]; omega
    rw [e1]
    simp [Chunk.value, hv]

theorem processLines_chunks (loads : String → Option JsonValue)
    (chunks : List Chunk) (h : ∀ c ∈ chunks, c.OK loads) (n : Nat) :
    processLines loads ⟨n, [], 0⟩ (chunkLines chunks) =
      (⟨n + totalLines chunks, [], 0⟩, chunkResults loads n chunks, none) := by
  induction chunks generalizing n with
  | nil => simp [chunkLines, totalLines, chunkResults, processLines]
  | cons c cs ih =>
    have hc := h c (by simp)
    have hcs : ∀ x ∈ cs, x.OK loads := fun x hx => h x (by simp [hx])
    simp only [chunkLines, processLines_chunk loads c hc n (chunkLines cs)]
    rw [ih hcs (n + c.lineCount)]
    simp [chunkResults, totalLines]
    omega

-- ------------------------------------------------------------------ --
--  Reducer lemmas                                                     --
-- ------------------------------------------------------------------ --

theorem dictGet_dictSet_self (l : List (Int × α)) (k : Int) (v : α) :
    dictGet (dictSet l k v) k = some v := by
  induction l with
  | nil => simp [dictGet, dictSet]
  | cons h t ih =>
    by_cases hk : h.1 = k
    · simp [dictGet, dictSet, hk]
    · simp [dictGet, dictSet, hk, ih]

theorem dictSet_dictSet_self (l : List (Int × α)) (k : Int) (v w : α) :
    dictSet (dictSet l k v) k w = dictSet l k w := by
  induction l with
  | nil => simp [dictSet]
  | cons h t ih =>
    by_cases hk : h.1 = k
    · simp [dictSet, hk]
    · simp [dictSet, hk, ih]

theorem addToJob_logs (s : RunStatus) (r : JsonLogRecord) (j : Int) :
    (addToJob s r j).logs = s.logs := by
  unfold addToJob
  cases dictGet s.jobs j <;> rfl

theorem addToJob_workflow_id (s : RunStatus) (r : JsonLogRecord) (j : Int) :
    (addToJob s r j).workflow_id = s.workflow_id := by
  unfold addToJob
  cases dictGet s.jobs j <;> rfl

theorem addToJob_snakefile (s : RunStatus) (r : JsonLogRecord) (j : Int) :
    (addToJob s r j).snakefile = s.snakefile := by
  unfold addToJob
  cases dictGet s.jobs j <;> rfl

theorem addToJob_rulegraph (s : RunStatus) (r : JsonLogRecord) (j : Int) :
    (addToJob s r j).rulegraph = s.rulegraph := by
  unfold addToJob
  cases dictGet s.jobs j <;> rfl

theorem foldl_addToJob_logs (r : JsonLogRecord) (js : List Int) (s : RunStatus) :
    (js.foldl (fun s j => addToJob s r j) s).logs = s.logs := by
  induction js generalizing s with
  | nil => rfl
  | cons j t ih => simp [List.foldl_cons, ih, addToJob_logs]

theorem foldl_addToJob_rulegraph (r : JsonLogRecord) (js : List Int) (s : RunStatus) :
    (js.foldl (fun s j => addToJob s r j) s).rulegraph = s.rulegraph := by
  induction js generalizing s with
  | nil => rfl
  | cons j t ih => simp [List.foldl_cons, ih, addToJob_rulegraph]

/-- Source `_process_snakemake_record` appends the record to `logs` and touches no
other `RunStatus` field except `jobs`/`job_logs`. -/
theorem psr_logs (s : RunStatus) (r : JsonLogRecord) (add : Bool) :
    (processSnakemakeRecord s r add).logs = s.logs ++ [r] := by
  unfold processSnakemakeRecord processRecordBase
  cases add <;> simp [foldl_addToJob_logs]

theorem psr_rulegraph (s : RunStatus) (r : JsonLogRecord) (add : Bool) :
    (processSnakemakeRecord s r add).rulegraph = s.rulegraph := by
  unfold processSnakemakeRecord processRecordBase
  cases add <;> simp [foldl_addToJob_rulegraph]

theorem errBind {α β : Type} (e : ε) (f : α → Except ε β) :
    (Except.error e >>= f : Except ε β) = .error e := rfl

/-- Processing lines distributes over list append as long as the prefix raises
no error. -/
theorem processLines_append (loads : String → Option JsonValue)
    (xs ys : List String) (st : ParserState)
    (h : (processLines loads st xs).2.2 = none) :
    processLines loads st (xs ++ ys) =
      ((processLines loads (processLines loads st xs).1 ys).1,
       (processLines loads st xs).2.1 ++ (processLines loads (processLines loads st xs).1 ys).2.1,
       (processLines loads (processLines loads st xs).1 ys).2.2) := by
  induction xs generalizing st with
  | nil => simp [processLines]
  | cons x xs ih =>
    rcases hx : processLine loads st x with ⟨st', r⟩
    cases r with
    | error e =>
      simp only [processLines, hx] at h
      simp at h
    | ok o =>
      cases o with
      | none =>
        simp only [List.cons_append, processLines, hx] at h ⊢
        exact ih st' h
      | some res =>
        simp only [List.cons_append, processLines, hx] at h ⊢
        rcases hrec : processLines loads st' xs with ⟨st'', rs, e⟩
        rw [hrec] at h
        cases e with
        | some e0 => simp at h
        | none =>
          have hih := ih st' (by rw [hrec])
          simp only [List.append_eq]
          rw [hih, hrec]

/-- Strict order of occurrence: `a` occurs at an earlier position than `b` in `l`. -/
def appearsBefore (l : List α) (a b : α) : Prop :=
  ∃ i j : Fin l.length, i < j ∧ l.get i = a ∧ l.get j = b

/-- The dataclass field names of one concrete record model (its own
field set: the base-class fields plus the variant's fields). -/
def modelFieldNames : ModelClass → List String
  | .standardLogRecord => ["message", "levelno", "created", "exc_info"]
  | .loggingStartedRecord => ["message", "levelno", "created", "exc_info", "pid", "proc_started"]
  | .formattingErrorRecord => ["message", "levelno", "created", "exc_info", "record_partial", "exception"]
  | .errorRecord => ["message", "levelno", "created", "exc_info", "exception", "location", "rule", "trackeback", "file", "line"]
  | .workflowStartedRecord => ["message", "levelno", "created", "exc_info", "workflow_id", "snakefile"]
  | .jobInfoRecord => ["message", "levelno", "created", "exc_info", "jobid", "rule_name", "threads", "input", "output", "log", "benchmark", "rule_msg", "wildcards", "reason", "shellcmd", "priority", "resources"]
  | .jobStartedRecord => ["message", "levelno", "created", "exc_info", "jobs"]
  | .jobFinishedRecord => ["message", "levelno", "created", "exc_info", "job_id"]
  | .shellCmdRecord => ["message", "levelno", "created", "exc_info", "jobid", "shellcmd", "rule_name"]
  | .jobErrorRecord => ["message", "levelno", "created", "exc_info", "jobid"]
  | .groupInfoRecord => ["message", "levelno", "created", "exc_info", "group_id", "jobs"]
  | .groupErrorRecord => ["message", "levelno", "created", "exc_info", "groupid", "aux_logs", "job_error_info"]
  | .resourcesInfoRecord => ["message", "levelno", "created", "exc_info", "nodes", "cores", "provided_resources"]
  | .debugDagRecord => ["message", "levelno", "created", "exc_info", "status", "job", "file", "exception"]
  | .progressRecord => ["message", "levelno", "created", "exc_info", "done", "total"]
  | .rulegraphRecord => ["message", "levelno", "created", "exc_info", "rulegraph"]
  | .runInfoRecord => ["message", "levelno", "created", "exc_info", "stats"]

theorem objGet_append_ne (o : JsonObj) (k k' : String) (v : JsonValue)
    (h : k ≠ k') :
    objGet (o ++ [(k, v)]) k' = objGet o k' := by
  induction o with
  | nil => simp [objGet, h]
  | cons p t ih =>
    by_cases hp : p.1 = k'
    · simp [objGet, hp]
    · simp [objGet, hp, ih]

theorem objRemove_append (o : JsonObj) (k k' : String) (v : JsonValue)
    (h : k ≠ k') :
    objRemove (o ++ [(k, v)]) k' = objRemove o k' ++ [(k, v)] := by
  simp [objRemove, List.filter_append, h]

theorem vReq_append (o : JsonObj) (name k : String) (v : JsonValue)
    (dec : JsonValue → Option α) (h : k ≠ name) :
    vReq (o ++ [(k, v)]) name dec = vReq o name dec := by
  simp [vReq, objGet_append_ne o k name v h]

theorem vOpt_append (o : JsonObj) (name k : String) (v : JsonValue)
    (dec : JsonValue → Option α) (d : α) (h : k ≠ name) :
    vOpt (o ++ [(k, v)]) name dec d = vOpt o name dec d := by
  simp [vOpt, objGet_append_ne o k name v h]

theorem vBase_append (now : ℚ) (o : JsonObj) (k : String) (v : JsonValue)
    (md : Option (Option String)) (ld : Option Int)
    (h1 : k ≠ "message") (h2 : k ≠ "levelno") (h3 : k ≠ "created")
    (h4 : k ≠ "exc_info") :
    vBase now (o ++ [(k, v)]) md ld = vBase now o md ld := by
  unfold vBase
  simp only [vReq_append, vOpt_append, h1, h2, h3, h4, ne_eq, not_false_eq_true]

/-- Pydantic validation never inspects keys outside the selected model's own
field set: an appended unknown key leaves the result unchanged
(`extra='ignore'`, the default, since the `extra='forbid'` config line is
commented out). -/
theorem validateModel_extra (now : ℚ) (m : ModelClass) (o : JsonObj)
    (k : String) (v : JsonValue) (hk : k ∉ modelFieldNames m) :
    validateModel now m (o ++ [(k, v)]) = validateModel now m o := by
  cases m with
  | standardLogRecord =>
    have h_message : k ≠ "message" := fun h => hk (by rw [h]; decide)
    have h_levelno : k ≠ "levelno" := fun h => hk (by rw [h]; decide)
    have h_created : k ≠ "created" := fun h => hk (by rw [h]; decide)
    have h_exc_info : k ≠ "exc_info" := fun h => hk (by rw [h]; decide)
    simp only [validateModel, vBase_append, vReq_append, vOpt_append,
      ne_eq, not_false_eq_true, h_message, h_levelno, h_created, h_exc_info]
  | loggingStartedRecord =>
    have h_message : k ≠ "message" := fun h => hk (by rw [h]; decide)
    have h_levelno : k ≠ "levelno" := fun h => hk (by rw [h]; decide)
    have h_created : k ≠ "created" := fun h => hk (by rw [h]; decide)
    have h_exc_info : k ≠ "exc_info" := fun h => hk (by rw [h]; decide)
    have h_pid : k ≠ "pid" := fun h => hk (by rw [h]; decide)
    have h_proc_started : k ≠ "proc_started" := fun h => hk (by rw [h]; decide)
    simp only [validateModel, vBase_append, vReq_append, vOpt_append,
      ne_eq, not_false_eq_true, h_message, h_levelno, h_created, h_exc_info, h_pid, h_proc_started]
  | formattingErrorRecord =>
    have h_message : k ≠ "message" := fun h => hk (by rw [h]; decide)
    have h_levelno : k ≠ "levelno" := fun h => hk (by rw [h]; decide)
    have h_created : k ≠ "created" := fun h => hk (by rw [h]; decide)
    have h_exc_info : k ≠ "exc_info" := fun h => hk (by rw [h]; decide)
    have h_record_partial : k ≠ "record_partial" := fun h => hk (by rw [h]; decide)
    have h_exception : k ≠ "exception" := fun h => hk (by rw [h]; decide)
    simp only [validateModel, vBase_append, vReq_append, vOpt_append,
      ne_eq, not_false_eq_true, h_message, h_levelno, h_created, h_exc_info, h_record_partial, h_exception]
  | errorRecord =>
    have h_message : k ≠ "message" := fun h => hk (by rw [h]; decide)
    have h_levelno : k ≠ "levelno" := fun h => hk (by rw [h]; decide)
    have h_created : k ≠ "created" := fun h => hk (by rw [h]; decide)
    have h_exc_info : k ≠ "exc_info" := fun h => hk (by rw [h]; decide)
    have h_exception : k ≠ "exception" := fun h => hk (by rw [h]; decide)
    have h_location : k ≠ "location" := fun h => hk (by rw [h]; decide)
    have h_rule : k ≠ "rule" := fun h => hk (by rw [h]; decide)
    have h_trackeback : k ≠ "trackeback" := fun h => hk (by rw [h]; decide)
    have h_file : k ≠ "file" := fun h => hk (by rw [h]; decide)
    have h_line : k ≠ "line" := fun h => hk (by rw [h]; decide)
    simp only [validateModel, vBase_append, vReq_append, vOpt_append,
      ne_eq, not_false_eq_true, h_message, h_levelno, h_created, h_exc_info, h_exception, h_location, h_rule, h_trackeback, h_file, h_line]
  | workflowStartedRecord =>
    have h_message : k ≠ "message" := fun h => hk (by rw [h]; decide)
    have h_levelno : k ≠ "levelno" := fun h => hk (by rw [h]; decide)
    have h_created : k ≠ "created" := fun h => hk (by rw [h]; decide)
    have h_exc_info : k ≠ "exc_info" := fun h => hk (by rw [h]; decide)
    have h_workflow_id : k ≠ "workflow_id" := fun h => hk (by rw [h]; decide)
    have h_snakefile : k ≠ "snakefile" := fun h => hk (by rw [h]; decide)
    simp only [validateModel, vBase_append, vReq_append, vOpt_append,
      ne_eq, not_false_eq_true, h_message, h_levelno, h_created, h_exc_info, h_workflow_id, h_snakefile]
  | jobInfoRecord =>
    have h_message : k ≠ "message" := fun h => hk (by rw [h]; decide)
    have h_levelno : k ≠ "levelno" := fun h => hk (by rw [h]; decide)
    have h_created : k ≠ "created" := fun h => hk (by rw [h]; decide)
    have h_exc_info : k ≠ "exc_info" := fun h => hk (by rw [h]; decide)
    have h_jobid : k ≠ "jobid" := fun h => hk (by rw [h]; decide)
    have h_rule_name : k ≠ "rule_name" := fun h => hk (by rw [h]; decide)
    have h_threads : k ≠ "threads" := fun h => hk (by rw [h]; decide)
    have h_input : k ≠ "input" := fun h => hk (by rw [h]; decide)
    have h_output : k ≠ "output" := fun h => hk (by rw [h]; decide)
    have h_log : k ≠ "log" := fun h => hk (by rw [h]; decide)
    have h_benchmark : k ≠ "benchmark" := fun h => hk (by rw [h]; decide)
    have h_rule_msg : k ≠ "rule_msg" := fun h => hk (by rw [h]; decide)
    have h_wildcards : k ≠ "wildcards" := fun h => hk (by rw [h]; decide)
    have h_reason : k ≠ "reason" := fun h => hk (by rw [h]; decide)
    have h_shellcmd : k ≠ "shellcmd" := fun h => hk (by rw [h]; decide)
    have h_priority : k ≠ "priority" := fun h => hk (by rw [h]; decide)
    have h_resources : k ≠ "resources" := fun h => hk (by rw [h]; decide)
    simp only [validateModel, vBase_append, vReq_append, vOpt_append,
      ne_eq, not_false_eq_true, h_message, h_levelno, h_created, h_exc_info, h_jobid, h_rule_name, h_threads, h_input, h_output, h_log, h_benchmark, h_rule_msg, h_wildcards, h_reason, h_shellcmd, h_priority, h_resources]
  | jobStartedRecord =>
    have h_message : k ≠ "message" := fun h => hk (by rw [h]; decide)
    have h_levelno : k ≠ "levelno" := fun h => hk (by rw [h]; decide)
    have h_created : k ≠ "created" := fun h => hk (by rw [h]; decide)
    have h_exc_info : k ≠ "exc_info" := fun h => hk (by rw [h]; decide)
    have h_jobs : k ≠ "jobs" := fun h => hk (by rw [h]; decide)
    simp only [validateModel, vBase_append, vReq_append, vOpt_append,
      ne_eq, not_false_eq_true, h_message, h_levelno, h_created, h_exc_info, h_jobs]
  | jobFinishedRecord =>
    have h_message : k ≠ "message" := fun h => hk (by rw [h]; decide)
    have h_levelno : k ≠ "levelno" := fun h => hk (by rw [h]; decide)
    have h_created : k ≠ "created" := fun h => hk (by rw [h]; decide)
    have h_exc_info : k ≠ "exc_info" := fun h => hk (by rw [h]; decide)
    have h_job_id : k ≠ "job_id" := fun h => hk (by rw [h]; decide)
    simp only [validateModel, vBase_append, vReq_append, vOpt_append,
      ne_eq, not_false_eq_true, h_message, h_levelno, h_created, h_exc_info, h_job_id]
  | shellCmdRecord =>
    have h_message : k ≠ "message" := fun h => hk (by rw [h]; decide)
    have h_levelno : k ≠ "levelno" := fun h => hk (by rw [h]; decide)
    have h_created : k ≠ "created" := fun h => hk (by rw [h]; decide)
    have h_exc_info : k ≠ "exc_info" := fun h => hk (by rw [h]; decide)
    have h_jobid : k ≠ "jobid" := fun h => hk (by rw [h]; decide)
    have h_shellcmd : k ≠ "shellcmd" := fun h => hk (by rw [h]; decide)
    have h_rule_name : k ≠ "rule_name" := fun h => hk (by rw [h]; decide)
    simp only [validateModel, vBase_append, vReq_append, vOpt_append,
      ne_eq, not_false_eq_true, h_message, h_levelno, h_created, h_exc_info, h_jobid, h_shellcmd, h_rule_name]
  | jobErrorRecord =>
    have h_message : k ≠ "message" := fun h => hk (by rw [h]; decide)
    have h_levelno : k ≠ "levelno" := fun h => hk (by rw [h]; decide)
    have h_created : k ≠ "created" := fun h => hk (by rw [h]; decide)
    have h_exc_info : k ≠ "exc_info" := fun h => hk (by rw [h]; decide)
    have h_jobid : k ≠ "jobid" := fun h => hk (by rw [h]; decide)
    simp only [validateModel, vBase_append, vReq_append, vOpt_append,
      ne_eq, not_false_eq_true, h_message, h_levelno, h_created, h_exc_info, h_jobid]
  | groupInfoRecord =>
    have h_message : k ≠ "message" := fun h => hk (by rw [h]; decide)
    have h_levelno : k ≠ "levelno" := fun h => hk (by rw [h]; decide)
    have h_created : k ≠ "created" := fun h => hk (by rw [h]; decide)
    have h_exc_info : k ≠ "exc_info" := fun h => hk (by rw [h]; decide)
    have h_group_id : k ≠ "group_id" := fun h => hk (by rw [h]; decide)
    have h_jobs : k ≠ "jobs" := fun h => hk (by rw [h]; decide)
    simp only [validateModel, vBase_append, vReq_append, vOpt_append,
      ne_eq, not_false_eq_true, h_message, h_levelno, h_created, h_exc_info, h_group_id, h_jobs]
  | groupErrorRecord =>
    have h_message : k ≠ "message" := fun h => hk (by rw [h]; decide)
    have h_levelno : k ≠ "levelno" := fun h => hk (by rw [h]; decide)
    have h_created : k ≠ "created" := fun h => hk (by rw [h]; decide)
    have h_exc_info : k ≠ "exc_info" := fun h => hk (by rw [h]; decide)
    have h_groupid : k ≠ "groupid" := fun h => hk (by rw [h]; decide)
    have h_aux_logs : k ≠ "aux_logs" := fun h => hk (by rw [h]; decide)
    have h_job_error_info : k ≠ "job_error_info" := fun h => hk (by rw [h]; decide)
    simp only [validateModel, vBase_append, vReq_append, vOpt_append,
      ne_eq, not_false_eq_true, h_message, h_levelno, h_created, h_exc_info, h_groupid, h_aux_logs, h_job_error_info]
  | resourcesInfoRecord =>
    have h_message : k ≠ "message" := fun h => hk (by rw [h]; decide)
    have h_levelno : k ≠ "levelno" := fun h => hk (by rw [h]; decide)
    have h_created : k ≠ "created" := fun h => hk (by rw [h]; decide)
    have h_exc_info : k ≠ "exc_info" := fun h => hk (by rw [h]; decide)
    have h_nodes : k ≠ "nodes" := fun h => hk (by rw [h]; decide)
    have h_cores : k ≠ "cores" := fun h => hk (by rw [h]; decide)
    have h_provided_resources : k ≠ "provided_resources" := fun h => hk (by rw [h]; decide)
    simp only [validateModel, vBase_append, vReq_append, vOpt_append,
      ne_eq, not_false_eq_true, h_message, h_levelno, h_created, h_exc_info, h_nodes, h_cores, h_provided_resources]
  | debugDagRecord =>
    have h_message : k ≠ "message" := fun h => hk (by rw [h]; decide)
    have h_levelno : k ≠ "levelno" := fun h => hk (by rw [h]; decide)
    have h_created : k ≠ "created" := fun h => hk (by rw [h]; decide)
    have h_exc_info : k ≠ "exc_info" := fun h => hk (by rw [h]; decide)
    have h_status : k ≠ "status" := fun h => hk (by rw [h]; decide)
    have h_job : k ≠ "job" := fun h => hk (by rw [h]; decide)
    have h_file : k ≠ "file" := fun h => hk (by rw [h]; decide)
    have h_exception : k ≠ "exception" := fun h => hk (by rw [h]; decide)
    simp only [validateModel, vBase_append, vReq_append, vOpt_append,
      ne_eq, not_false_eq_true, h_message, h_levelno, h_created, h_exc_info, h_status, h_job, h_file, h_exception]
  | progressRecord =>
    have h_message : k ≠ "message" := fun h => hk (by rw [h]; decide)
    have h_levelno : k ≠ "levelno" := fun h => hk (by rw [h]; decide)
    have h_created : k ≠ "created" := fun h => hk (by rw [h]; decide)
    have h_exc_info : k ≠ "exc_info" := fun h => hk (by rw [h]; decide)
    have h_done : k ≠ "done" := fun h => hk (by rw [h]; decide)
    have h_total : k ≠ "total" := fun h => hk (by rw [h]; decide)
    simp only [validateModel, vBase_append, vReq_append, vOpt_append,
      ne_eq, not_false_eq_true, h_message, h_levelno, h_created, h_exc_info, h_done, h_total]
  | rulegraphRecord =>
    have h_message : k ≠ "message" := fun h => hk (by rw [h]; decide)
    have h_levelno : k ≠ "levelno" := fun h => hk (by rw [h]; decide)
    have h_created : k ≠ "created" := fun h => hk (by rw [h]; decide)
    have h_exc_info : k ≠ "exc_info" := fun h => hk (by rw [h]; decide)
    have h_rulegraph : k ≠ "rulegraph" := fun h => hk (by rw [h]; decide)
    simp only [validateModel, vBase_append, vReq_append, vOpt_append,
      ne_eq, not_false_eq_true, h_message, h_levelno, h_created, h_exc_info, h_rulegraph]
  | runInfoRecord =>
    have h_message : k ≠ "message" := fun h => hk (by rw [h]; decide)
    have h_levelno : k ≠ "levelno" := fun h => hk (by rw [h]; decide)
    have h_created : k ≠ "created" := fun h => hk (by rw [h]; decide)
    have h_exc_info : k ≠ "exc_info" := fun h => hk (by rw [h]; decide)
    have h_stats : k ≠ "stats" := fun h => hk (by rw [h]; decide)
    simp only [validateModel, vBase_append, vReq_append, vOpt_append,
      ne_eq, not_false_eq_true, h_message, h_levelno, h_created, h_exc_info, h_stats]

theorem getRecordModel_extra (o : JsonObj) (k : String) (v : JsonValue)
    (m : ModelClass) (h1 : k ≠ "type") (h2 : k ≠ "event")
    (hm : getRecordModel o = .ok m) :
    getRecordModel (o ++ [(k, v)]) = .ok m := by
  unfold getRecordModel at hm ⊢
  rw [objGet_append_ne o k "type" v h1, objGet_append_ne o k "event" v h2]
  (try split at hm) <;> (try split at hm) <;> (try split at hm) <;>
    (try split at hm) <;> simp_all

/-- Any call of `process_record` that raises leaves the state exactly as it
was: every raise in `stuff.py` happens before the first mutation. -/
theorem processRecord_err_state (s : RunStatus) (r : JsonLogRecord) :
    (processRecord s r).2.isSome = true → (processRecord s r).1 = s := by
  intro herr
  cases r <;>
    simp only [processRecord, processJobInfo, processJobFinished, processWorkflowStarted,
      processRulegraph] at herr ⊢ <;>
    (try split at herr) <;> (try split at herr) <;> (try split) <;>
    simp_all [processRecordBase, psr_logs, JsonLogRecord.isSnakemake]

/-- A call of `process_record` that does not raise appends the record to
`logs`, and appends nothing else there. -/
theorem processRecord_ok_logs (s : RunStatus) (r : JsonLogRecord) :
    (processRecord s r).2 = none → (processRecord s r).1.logs = s.logs ++ [r] := by
  intro hok
  cases r <;>
    simp only [processRecord, processJobInfo, processJobFinished, processWorkflowStarted,
      processRulegraph] at hok ⊢ <;>
    (try split at hok) <;> (try split at hok) <;> (try split) <;>
    simp_all [processRecordBase, psr_logs, JsonLogRecord.isSnakemake]

-- ------------------------------------------------------------------ --
--  Claims                                                             --
-- ------------------------------------------------------------------ --

/-- The record used by the C1 witness. -/
def c1rec : JsonLogRecord := .standard ⟨none, 20, 0, none⟩

/-- A JSON decoder for the C1 witness: every string decodes to the
serialized witness record. -/
def c1loads : String → Option JsonValue := fun _ => some (.obj (serializeRecord c1rec))

/-- C1: serializing any concrete record variant (which adds the `type`,
`event` and `levelname` transport keys and omits `exc_info` when `None`) and
decoding the result with the record decoder yields the record back; and in
both the single-line and the pretty multi-line encodings, the boundary parser
surfaces exactly the serialized object, so the round trip holds for both
encodings. -/
theorem c1_roundtrip (now : ℚ) (r : JsonLogRecord)
    (loads : String → Option JsonValue)
    (line opener closer : String) (mids : List String)
    (h1 : startsWithBrace (pyRstrip line) = true) (h2 : pyRstrip line ≠ "\x7b")
    (h3 : loads (pyRstrip line) = some (.obj (serializeRecord r)))
    (h4 : pyRstrip opener = "\x7b") (h5 : ∀ m ∈ mids, pyRstrip m ≠ "\x7d")
    (h6 : pyRstrip closer = "\x7d")
    (h7 : loads (String.join ("\x7b" :: (mids.map pyRstrip ++ ["\x7d"]))) =
      some (.obj (serializeRecord r))) :
    logrecord_from_json now (serializeRecord r) = .ok r
    ∧ processLines loads ParserState.init [line] =
        (⟨1, [], 0⟩, [(1, 1, .obj (serializeRecord r))], none)
    ∧ processLines loads ParserState.init (opener :: (mids ++ [closer])) =
        (⟨mids.length + 2, [], 0⟩, [(1, mids.length + 2, .obj (serializeRecord r))], none) := by
  refine ⟨serialize_roundtrip now r, ?_, ?_⟩
  · have hch : Chunk.OK loads (.single line) := ⟨h1, h2, serializeRecord r, h3⟩
    have := processLines_chunks loads [.single line] (by simpa using hch) 0
    simpa [ParserState.init, chunkLines, Chunk.lines, totalLines, Chunk.lineCount,
      chunkResults, Chunk.value, h3] using this
  · have hch : Chunk.OK loads (.multi opener mids closer) :=
      ⟨h4, h5, h6, by simp [h7]⟩
    have := processLines_chunks loads [.multi opener mids closer] (by simpa using hch) 0
    simpa [ParserState.init, chunkLines, Chunk.lines, totalLines, Chunk.lineCount,
      chunkResults, Chunk.value, h7, Nat.add_comm] using this

/-- C1 witness: the round trip evaluated at a concrete standard record, a
concrete single-line input and a concrete pretty multi-line input. -/
theorem c1_roundtrip_witness :
    logrecord_from_json 0 (serializeRecord c1rec) = .ok c1rec
    ∧ processLines c1loads ParserState.init ["\x7bx"] =
        (⟨1, [], 0⟩, [(1, 1, .obj (serializeRecord c1rec))], none)
    ∧ processLines c1loads ParserState.init ("\x7b" :: ([] ++ ["\x7d"])) =
        (⟨2, [], 0⟩, [(1, 2, .obj (serializeRecord c1rec))], none) :=
  c1_roundtrip 0 c1rec c1loads "\x7bx" "\x7b" "\x7d" [] rfl (by decide) rfl rfl
    (by intro m hm; cases hm) rfl rfl

/-- The `JobStarted{jobs:[1]}` record of the C2 counterexample. -/
def c2js : JsonLogRecord := .jobStarted ⟨none, 20, 0, none⟩ [1]

/-- The `JobInfo{jobid:1}` record of the C2 counterexample. -/
def c2ji : JsonLogRecord :=
  .jobInfo ⟨none, 20, 1, none⟩ 1 "r" 1 none none none none none none none none none none

/-- C2 counterexample: after `JobStarted{jobs:[1]}` then `JobInfo{jobid:1}`,
job 1's log list is `[JobInfo, JobStarted]`: the pending record is *not* at a
position before the `JobInfo` record — it is drained after it, because
`JobInfo.from_record` seeds the log list with the `JobInfo` record itself. -/
theorem c2_counterexample :
    (dictGet (processAll (RunStatus.init 0) [c2js, c2ji]).1.jobs 1).map JobInfo.logs =
      some [c2ji, c2js]
    ∧ ¬ appearsBefore [c2ji, c2js] c2js c2ji := by
  constructor
  · rfl
  · rintro ⟨⟨iv, hiv⟩, ⟨jv, hjv⟩, hij, hi, hj⟩
    have h2i : iv < 2 := by simpa using hiv
    have h2j : jv < 2 := by simpa using hjv
    have hij' : iv < jv := hij
    have hiz : iv = 0 ∧ jv = 1 := by omega
    obtain ⟨rfl, rfl⟩ := hiz
    simp [List.get, c2ji, c2js] at hi

/-- C2 (amended): processing a Snakemake record referencing job `n` before
the `JobInfo` record for `n` leaves job `n`'s log list with the `JobInfo`
record first, followed by the buffered earlier record (pending entries are
drained in arrival order, after the triggering `JobInfo` record). -/
theorem c2_amended (t : ℚ) (b1 b2 : RecBase) (n : Int) (rn : String) (th : Int)
    (i o l : Option (List String)) (bm rm : Option String) (w : Option JsonObj)
    (re sc : Option String) (pr : Option Int) (rs : Option DictOrList) :
    (processAll (RunStatus.init t)
        [.jobStarted b1 [n], .jobInfo b2 n rn th i o l bm rm w re sc pr rs]).2 = none
    ∧ (dictGet (processAll (RunStatus.init t)
        [.jobStarted b1 [n], .jobInfo b2 n rn th i o l bm rm w re sc pr rs]).1.jobs n).map
          JobInfo.logs =
        some [.jobInfo b2 n rn th i o l bm rm w re sc pr rs, .jobStarted b1 [n]] := by
  constructor <;>
    simp [processAll, processRecord, processJobInfo, processSnakemakeRecord,
      processRecordBase, addToJob, JsonLogRecord.associatedJobs, JsonLogRecord.isSnakemake,
      RunStatus.init, dictGet, dictSet, pendingAdd, dictRemove, JobInfo.fromRecord]

/-- C3: the reducer's `logs` is exactly the input sequence in arrival order;
and when processing stops at a raising record, `logs` holds exactly the
records processed before it. -/
theorem c3_logs_exact (s : RunStatus) (records : List JsonLogRecord) :
    ((processAll s records).2 = none → (processAll s records).1.logs = s.logs ++ records)
    ∧ (∀ e, (processAll s records).2 = some e →
        ∃ k, ∃ hk : k < records.length,
          (processAll s records).1.logs = s.logs ++ records.take k
          ∧ (processAll s (records.take k)).2 = none
          ∧ (processRecord ((processAll s (records.take k)).1) (records.get ⟨k, hk⟩)).2 = some e) := by
  induction records generalizing s with
  | nil =>
    constructor
    · intro _; simp [processAll]
    · intro e he; simp [processAll] at he
  | cons r rs ih =>
    rcases hpr : processRecord s r with ⟨s', e'⟩
    cases e' with
    | none =>
      have hstep : processAll s (r :: rs) = processAll s' rs := by
        simp [processAll, hpr]
      have hlogs : s'.logs = s.logs ++ [r] := by
        have := processRecord_ok_logs s r (by simp [hpr])
        rwa [hpr] at this
      constructor
      · intro hnone
        rw [hstep] at hnone ⊢
        rw [(ih s').1 hnone, hlogs]
        simp
      · intro e he
        rw [hstep] at he
        obtain ⟨k, hk, h1, h2, h3⟩ := (ih s').2 e he
        refine ⟨k + 1, by simpa using Nat.succ_lt_succ hk, ?_, ?_, ?_⟩
        · rw [hstep, h1, hlogs]
          simp [List.take_succ_cons]
        · have heq : processAll s ((r :: rs).take (k + 1)) = processAll s' (rs.take k) := by
            simp [List.take_succ_cons, processAll, hpr]
          rw [heq]; exact h2
        · have heq : processAll s ((r :: rs).take (k + 1)) = processAll s' (rs.take k) := by
            simp [List.take_succ_cons, processAll, hpr]
          rw [heq]
          exact h3
    | some e0 =>
      have hstate : s' = s := by
        have := processRecord_err_state s r (by simp [hpr])
        rwa [hpr] at this
      have hstep : processAll s (r :: rs) = (s', some e0) := by
        simp [processAll, hpr]
      constructor
      · intro hnone; rw [hstep] at hnone; simp at hnone
      · intro e he
        rw [hstep] at he
        simp at he
        subst he
        refine ⟨0, by simp, ?_, ?_, ?_⟩
        · rw [hstep]; simp [hstate]
        · simp [processAll]
        · simp [processAll, hpr]

/-- The record sequence of the C3 witness. -/
def c3recs : List JsonLogRecord :=
  [.standard ⟨none, 20, 0, none⟩, .jobStarted ⟨none, 20, 1, none⟩ [5]]

/-- C3 witness: a concrete error-free run whose `logs` equals the input. -/
theorem c3_witness :
    (processAll (RunStatus.init 0) c3recs).1.logs = (RunStatus.init 0).logs ++ c3recs :=
  (c3_logs_exact (RunStatus.init 0) c3recs).1 rfl

/-- The raw object of the C4 counterexample: a valid standard record plus an
unknown extra key `bogus`. -/
def c4obj : JsonObj :=
  [("type", .str "standard"), ("message", .null), ("levelno", .int 20),
   ("created", .int 0), ("bogus", .int 1)]

/-- C4 counterexample: the decoder does *not* fail on an unknown extra field;
it decodes the object successfully, dropping `bogus` (pydantic's default
`extra='ignore'` applies because the `extra='forbid'` config is commented
out). -/
theorem c4_counterexample :
    logrecord_from_json 0 c4obj = .ok (.standard ⟨none, 20, 0, none⟩) := rfl

/-- C4 (amended): an unknown extra field — a key outside the transport keys
and outside the field set of the variant that the object's `type`/`event`
keys select — is silently ignored: decoding with the extra field succeeds and
yields the same record as without it. -/
theorem c4_amended (now : ℚ) (data : JsonObj) (r : JsonLogRecord)
    (k : String) (v : JsonValue) (m : ModelClass)
    (hm : getRecordModel data = .ok m)
    (hr : logrecord_from_json now data = .ok r)
    (ht : k ≠ "type") (he : k ≠ "event") (hl : k ≠ "levelname")
    (hf : k ∉ modelFieldNames m) :
    logrecord_from_json now (data ++ [(k, v)]) = .ok r := by
  have h2 := getRecordModel_extra data k v m ht he hm
  unfold logrecord_from_json at hr ⊢
  rw [hm] at hr
  rw [h2]
  simp only [okBind] at hr ⊢
  rw [objRemove_append _ k "type" v ht, objRemove_append _ k "event" v he,
    objRemove_append _ k "levelname" v hl,
    validateModel_extra now m _ k v hf]
  exact hr

/-- C4 witness: the amended statement with `jobid` — a field of other
variants but not of `StandardLogRecord` — as the extra key on a standard
record. -/
theorem c4_witness :
    logrecord_from_json 0
        ([("type", .str "standard"), ("message", .null), ("levelno", .int 20),
          ("created", .int 0)] ++ [("jobid", .int 5)]) =
      .ok (.standard ⟨none, 20, 0, none⟩) :=
  c4_amended 0 _ _ "jobid" (.int 5) .standardLogRecord rfl rfl
    (by decide) (by decide) (by decide) (by decide)

/-- C5: contrary to the spec (and to the `# Skip blank lines` comment in the
source), a blank or whitespace-only line outside an open multi-line object is
*not* ignored: `line.isspace()` is checked after `line.rstrip()`, and
`"".isspace()` is `False` in Python, so the check never fires and the line
falls through to the catch-all parse error. -/
theorem c5_blank_line_raises :
    processLine (fun _ => none) ParserState.init "" =
      (⟨1, [], 0⟩, .error ⟨"Expected single opening brace or complete JSON object",
        none, some 1, some 1⟩)
    ∧ processLine (fun _ => none) ParserState.init " \t " =
      (⟨1, [], 0⟩, .error ⟨"Expected single opening brace or complete JSON object",
        none, some 1, some 1⟩) := ⟨rfl, rfl⟩

/-- C6: processing `JobFinished` fails with the missing-job error when no
`JobInfo` entity exists, fails with the duplicate-event error when the job's
`finished` is already set, and otherwise sets `finished` to the record's
creation timestamp and appends the record to `logs` and the job's log
list. -/
theorem c6_job_finished (s : RunStatus) (b : RecBase) (jid : Int) :
    (dictGet s.jobs jid = none →
      processRecord s (.jobFinished b jid) =
        (s, some ("JOB_FINISHED event before JOB_INFO for job " ++ toString jid)))
    ∧ (∀ job, dictGet s.jobs jid = some job → job.finished.isSome = true →
      processRecord s (.jobFinished b jid) =
        (s, some ("Duplicate JOB_FINISHED event for job " ++ toString job.id)))
    ∧ (∀ job, dictGet s.jobs jid = some job → job.finished = none →
      (processRecord s (.jobFinished b jid)).2 = none
      ∧ (processRecord s (.jobFinished b jid)).1.logs = s.logs ++ [.jobFinished b jid]
      ∧ dictGet (processRecord s (.jobFinished b jid)).1.jobs jid =
          some { job with finished := some b.created,
                          logs := job.logs ++ [.jobFinished b jid] }) := by
  refine ⟨?_, ?_, ?_⟩
  · intro hnone
    simp [processRecord, processJobFinished, hnone]
  · intro job hjob hfin
    simp [processRecord, processJobFinished, hjob, hfin]
  · intro job hjob hfin
    have hfin' : job.finished.isSome = false := by simp [hfin]
    refine ⟨?_, ?_, ?_⟩
    · simp [processRecord, processJobFinished, hjob, hfin']
    · simp [processRecord, processJobFinished, hjob, hfin', psr_logs]
    · simp only [processRecord, processJobFinished, hjob, hfin', Bool.false_eq_true,
        if_false, processSnakemakeRecord, processRecordBase, JsonLogRecord.associatedJobs]
      simp [addToJob, dictGet_dictSet_self, dictSet_dictSet_self]

/-- The state of the C6 witness: one known, unfinished job with id 7. -/
def c6job : JobInfo := { id := 7, rule_name := "a", threads := 1, started := some 0 }

/-- The state of the C6 witness. -/
def c6state : RunStatus := { started := 0, jobs := [(7, c6job)] }

/-- C6 witness: the success clause evaluated at a concrete state. -/
theorem c6_witness :
    (processRecord c6state (.jobFinished ⟨none, 20, 3, none⟩ 7)).2 = none
    ∧ (processRecord c6state (.jobFinished ⟨none, 20, 3, none⟩ 7)).1.logs =
        c6state.logs ++ [.jobFinished ⟨none, 20, 3, none⟩ 7]
    ∧ dictGet (processRecord c6state (.jobFinished ⟨none, 20, 3, none⟩ 7)).1.jobs 7 =
        some { c6job with finished := some (⟨none, 20, 3, none⟩ : RecBase).created,
                          logs := c6job.logs ++ [.jobFinished ⟨none, 20, 3, none⟩ 7] } :=
  (c6_job_finished c6state ⟨none, 20, 3, none⟩ 7).2.2 c6job rfl rfl

/-- C7: over any stream of well-formed chunks — single-line objects freely
mixed with pretty multi-line blocks — the boundary parser yields exactly one
parsed object per chunk, with 1-based start line = the chunk's first line and
end line = the chunk's last line (so start = end = line index for a
single-line object, and `(start, end) = (a, b)` for a block spanning lines
`a..b`). -/
theorem c7_boundary_detection (loads : String → Option JsonValue)
    (chunks : List Chunk) (h : ∀ c ∈ chunks, c.OK loads) :
    processLines loads ParserState.init (chunkLines chunks) =
      (⟨totalLines chunks, [], 0⟩, chunkResults loads 0 chunks, none) := by
  simpa [ParserState.init] using processLines_chunks loads chunks h 0

/-- The decoder of the C7 witness. -/
def c7loads : String → Option JsonValue := fun s =>
  if s = "\x7b\x22a\x22: 1\x7d" then some (.obj [("a", .int 1)])
  else if s = "\x7b\x22b\x22: 2\x7d" then some (.obj [("b", .int 2)])
  else none

/-- The mixed stream of the C7 witness: one single-line object followed by
one pretty multi-line object. -/
def c7chunks : List Chunk :=
  [.single "\x7b\x22a\x22: 1\x7d", .multi "\x7b" ["\x22b\x22: 2"] "\x7d"]

/-- C7 witness: a concrete mixed stream, with the hypotheses discharged. -/
theorem c7_witness :
    (∀ c ∈ c7chunks, c.OK c7loads)
    ∧ processLines c7loads ParserState.init (chunkLines c7chunks) =
        (⟨totalLines c7chunks, [], 0⟩, chunkResults c7loads 0 c7chunks, none) := by
  have hok : ∀ c ∈ c7chunks, c.OK c7loads := by
    intro c hc
    simp only [c7chunks, List.mem_cons, List.mem_singleton] at hc
    rcases hc with rfl | rfl | h
    · exact ⟨rfl, by decide, [("a", .int 1)], rfl⟩
    · exact ⟨rfl, by intro m hm; simp at hm; subst hm; decide, rfl, rfl⟩
    · cases h
  exact ⟨hok, c7_boundary_detection c7loads c7chunks hok⟩

/-- C8: an input whose tail leaves a multi-line object open (an unindented
`{` with no matching unindented `}` before end of input) processes without
error, but the end-of-input check `complete()` fails with a parse error whose
message and `start_line` name the line on which the unterminated object
started. -/
theorem c8_truncation (loads : String → Option JsonValue) (chunks : List Chunk)
    (opener : String) (mids : List String)
    (hc : ∀ c ∈ chunks, c.OK loads)
    (ho : pyRstrip opener = "\x7b") (hm : ∀ m ∈ mids, pyRstrip m ≠ "\x7d") :
    processLines loads ParserState.init (chunkLines chunks ++ opener :: mids) =
      (⟨totalLines chunks + 1 + mids.length, "\x7b" :: mids.map pyRstrip, totalLines chunks + 1⟩,
       chunkResults loads 0 chunks, none)
    ∧ ParserState.complete
        ⟨totalLines chunks + 1 + mids.length, "\x7b" :: mids.map pyRstrip, totalLines chunks + 1⟩ =
      some ⟨"JSON object starting on line " ++ toString (totalLines chunks + 1) ++ " not closed",
        none, some (totalLines chunks + 1), some (totalLines chunks + 1 + mids.length)⟩ := by
  have hchunks : processLines loads ParserState.init (chunkLines chunks) =
      (⟨totalLines chunks, [], 0⟩, chunkResults loads 0 chunks, none) := by
    simpa [ParserState.init] using processLines_chunks loads chunks hc 0
  have htail : processLines loads ⟨totalLines chunks, [], 0⟩ (opener :: mids) =
      (⟨totalLines chunks + 1 + mids.length, "\x7b" :: mids.map pyRstrip, totalLines chunks + 1⟩,
       [], none) := by
    have hopen := processLine_opener loads (totalLines chunks) 0 opener ho
    have hmids := processLines_mids loads (totalLines chunks + 1) (totalLines chunks + 1)
      ["\x7b"] (by simp) mids [] hm
    rw [show (opener :: mids) = opener :: (mids ++ []) by simp]
    simp only [processLines, hopen, hmids, List.singleton_append]
  constructor
  · rw [processLines_append loads (chunkLines chunks) (opener :: mids) ParserState.init
      (by rw [hchunks])]
    rw [hchunks]
    simp only [htail]
    simp
  · simp [ParserState.complete]

/-- The decoder of the C8 witness (never called). -/
def c8loads : String → Option JsonValue := fun _ => none

/-- The interior lines of the C8 witness's unterminated object. -/
def c8mids : List String := ["\x22a\x22: 1"]

/-- C8 witness: a stream that is just `{` followed by one interior line. -/
theorem c8_witness :
    processLines c8loads ParserState.init (chunkLines [] ++ "\x7b" :: c8mids) =
      (⟨totalLines ([] : List Chunk) + 1 + c8mids.length, "\x7b" :: c8mids.map pyRstrip,
        totalLines ([] : List Chunk) + 1⟩,
       chunkResults c8loads 0 [], none)
    ∧ ParserState.complete
        ⟨totalLines ([] : List Chunk) + 1 + c8mids.length, "\x7b" :: c8mids.map pyRstrip,
          totalLines ([] : List Chunk) + 1⟩ =
      some ⟨"JSON object starting on line " ++ toString (totalLines ([] : List Chunk) + 1)
              ++ " not closed",
        none, some (totalLines ([] : List Chunk) + 1),
        some (totalLines ([] : List Chunk) + 1 + c8mids.length)⟩ :=
  c8_truncation c8loads [] "\x7b" c8mids (by intro c hc; cases hc) rfl
    (by intro m hm; simp only [c8mids, List.mem_singleton] at hm; subst hm; decide)

/-- C9: whenever `process_record` raises a reduction error — duplicate
`JobInfo`, `JobFinished` without `JobInfo`, duplicate `JobFinished`,
duplicate `WorkflowStarted`, duplicate `Rulegraph` — the whole `RunStatus`
(logs, jobs, pending buffer and every scalar field) is left exactly as it
was. -/
theorem c9_error_state_unchanged (s : RunStatus) (r : JsonLogRecord) :
    (processRecord s r).2.isSome = true → (processRecord s r).1 = s :=
  processRecord_err_state s r

/-- C9 witness: `JobFinished` with no known job on a fresh state raises and
leaves the state unchanged. -/
theorem c9_witness :
    (processRecord (RunStatus.init 0) (.jobFinished ⟨none, 20, 0, none⟩ 3)).2.isSome = true
    ∧ (processRecord (RunStatus.init 0) (.jobFinished ⟨none, 20, 0, none⟩ 3)).1 =
        RunStatus.init 0 :=
  ⟨rfl, c9_error_state_unchanged (RunStatus.init 0) (.jobFinished ⟨none, 20, 0, none⟩ 3) rfl⟩

/-- C10: a `Rulegraph` record whose payload is `None` leaves the state's
`rulegraph` equal to `None`, so a second `Rulegraph` record raises no
duplicate-event error; the duplicate check fires exactly when an earlier
`Rulegraph` record carried a non-`None` payload. -/
theorem c10_rulegraph_none (s : RunStatus) (b1 b2 : RecBase) (p2 : Option JsonObj)
    (h : s.rulegraph = none) :
    ((processRecord s (.rulegraphRec b1 none)).2 = none
      ∧ (processRecord s (.rulegraphRec b1 none)).1.rulegraph = none
      ∧ (processRecord (processRecord s (.rulegraphRec b1 none)).1
          (.rulegraphRec b2 p2)).2 = none)
    ∧ (∀ pl : JsonObj,
        (processRecord s (.rulegraphRec b1 (some pl))).2 = none
        ∧ (processRecord (processRecord s (.rulegraphRec b1 (some pl))).1
            (.rulegraphRec b2 p2)).2 = some "Duplicate RULEGRAPH event") := by
  have h' : s.rulegraph.isSome = false := by simp [h]
  constructor
  · refine ⟨?_, ?_, ?_⟩
    · simp [processRecord, processRulegraph, h']
    · simp [processRecord, processRulegraph, h', psr_rulegraph]
    · simp [processRecord, processRulegraph, h', psr_rulegraph]
  · intro pl
    constructor
    · simp [processRecord, processRulegraph, h']
    · simp [processRecord, processRulegraph, h', psr_rulegraph]

/-- C10 witness: both clauses at a fresh state, with payload `[]` for the
non-`None` case. -/
theorem c10_witness :
    (((processRecord (RunStatus.init 0) (.rulegraphRec ⟨none, 20, 0, none⟩ none)).2 = none
      ∧ (processRecord (RunStatus.init 0) (.rulegraphRec ⟨none, 20, 0, none⟩ none)).1.rulegraph = none
      ∧ (processRecord (processRecord (RunStatus.init 0) (.rulegraphRec ⟨none, 20, 0, none⟩ none)).1
          (.rulegraphRec ⟨none, 20, 1, none⟩ (some []))).2 = none)
    ∧ (∀ pl : JsonObj,
        (processRecord (RunStatus.init 0) (.rulegraphRec ⟨none, 20, 0, none⟩ (some pl))).2 = none
        ∧ (processRecord (processRecord (RunStatus.init 0) (.rulegraphRec ⟨none, 20, 0, none⟩ (some pl))).1
            (.rulegraphRec ⟨none, 20, 1, none⟩ (some []))).2 = some "Duplicate RULEGRAPH event")) :=
  c10_rulegraph_none (RunStatus.init 0) ⟨none, 20, 0, none⟩ ⟨none, 20, 1, none⟩ (some []) rfl

end SnakemakeJson
